import Mathlib

/-!
# Solar_Charger/mppt.cpp: a shallow embedding of the MPPT charge controller

The globals of `mppt.cpp` become the record `Charger`; every function of the
source becomes a function on that record, in the order of the source's
statements.  Conventions:

* `unsigned char` variables are `Nat` reduced modulo 256 at every write,
  `unsigned long` ones are `Nat` modulo 2^32, `long int` ones are `Int`
  wrapped into the signed 32-bit range (what avr-gcc does on overflow);
* `double` variables hold rationals (every finite `double` is one) and
  are compared as such.  Arithmetic on them, and conversions between them
  and the integer types, go through the operations of a `DoubleArith`, the
  arithmetic of the target, which rounds as the target does; nothing is
  assumed about these operations, and `exactArith` is the instance without
  rounding.  The one exception is the difference `p_cur - p_prev`, of which
  only the sign is tested: it is the exact difference, whose sign is that
  of the difference of two `double`s;
* hardware reads (`VBAT_MEAS`, `VSOL_MEAS`, `VL_MEAS`, `micros()`) are the
  fields of a `Readings` argument, one record per call of a function, since
  every function reads each source at most once;
* hardware writes (`digitalWrite(SW1_PWM, _)`, `delay`, `resetFunc`) are
  returned as a list of `Effect`s, oldest first;
* the constants of `config.h` (not part of the sources at hand) and the
  arithmetic of the target are the fields of `Config`;
* the build modelled is the one without `CAL` defined.
-/

namespace SolarCharger

/-- The enumeration `STATES` of `mppt.h`. -/
inductive STATES where
  | INIT_CHG
  | INTEGRATE
  | MPPT
  | DONE_CHG
deriving DecidableEq, Repr

/-- The `double` arithmetic of the target, as far as `mppt.cpp` uses it:
the four operations, the conversions of a `long int` and of an
`unsigned long` to `double`, and the conversions of a `double` to `long int`
and to `char` (the latter stored in an `unsigned char`). -/
structure DoubleArith where
  add : Rat → Rat → Rat
  sub : Rat → Rat → Rat
  mul : Rat → Rat → Rat
  div : Rat → Rat → Rat
  ofLong : Int → Rat
  ofULong : Nat → Rat
  toLong : Rat → Int
  toChar : Rat → Nat

/-- Constants that `mppt.cpp` takes from `config.h`, and the arithmetic of
the target it is compiled for. -/
structure Config where
  D_MIN : Nat
  D_MAX : Nat
  NUM_INT : Nat
  VCHARGE : Rat
  SLEEP_TIME : Nat
  arith : DoubleArith

/-- The global variables of `mppt.cpp`. -/
structure Charger where
  cur_state : STATES
  duty_cycle : Nat
  v_solar : Rat
  v_battery : Rat
  vl_cur : Rat
  vl_prev : Rat
  p_cur : Rat
  p_prev : Rat
  integral : Int
  t_cur : Nat
  t_prev : Nat
  num_integrals : Nat
  integral_avg : Int
  pwm_count : Nat
  new_integral : Bool
  timer_on : Bool
  duty_inc : Bool
deriving DecidableEq, Repr

/-- One value per hardware source, as read during a single call. -/
structure Readings where
  VBAT_MEAS : Rat
  VSOL_MEAS : Rat
  VL_MEAS : Rat
  micros : Nat
deriving DecidableEq, Repr

/-- Commands sent to the hardware. `digitalWrite true` is
`digitalWrite(SW1_PWM, HIGH)`, `digitalWrite false` is `digitalWrite(SW1_PWM, LOW)`. -/
inductive Effect where
  | digitalWrite (high : Bool)
  | delay (ms : Nat)
  | resetFunc
deriving DecidableEq, Repr

/-- Value stored in an `unsigned char`. -/
def u8 (n : Nat) : Nat := n % 256

/-- Value stored in an `unsigned long` (32 bits on the AVR). -/
def u32 (n : Nat) : Nat := n % 2 ^ 32

/-- Value stored in a `long int` (32 bits, two's complement). -/
def i32 (x : Int) : Int := (x + 2 ^ 31) % 2 ^ 32 - 2 ^ 31

/-- Conversion of a `double` to an integer type: the fraction is discarded. -/
def truncate (q : Rat) : Int := Int.tdiv q.num q.den

/-- Conversion `(char)` of a `double`, stored into an `unsigned char`. -/
def charOfDouble (q : Rat) : Nat := (truncate q % 256).toNat

/-- Arithmetic without rounding: exact operations, exact conversions to
`double`, and conversions from `double` that discard the fraction and wrap
into the range of the integer type. -/
def exactArith : DoubleArith :=
  { add := fun a b => a + b
    sub := fun a b => a - b
    mul := fun a b => a * b
    div := fun a b => a / b
    ofLong := fun x => (x : Rat)
    ofULong := fun n => (n : Rat)
    toLong := fun q => i32 (truncate q)
    toChar := charOfDouble }

/-- Source: `check_battery()`. -/
def check_battery (cfg : Config) (r : Readings) (s : Charger) : Charger :=
  let s := { s with v_battery := r.VBAT_MEAS }
  if s.v_battery ≥ cfg.VCHARGE then
    { s with timer_on := false, cur_state := STATES.DONE_CHG }
  else s

/-- Source: `check_solar()`. -/
def check_solar (r : Readings) (s : Charger) : Charger :=
  { s with v_solar := r.VSOL_MEAS }

/-- Source: `pwm_handler()`, the timer interrupt. -/
def pwm_handler (s : Charger) : Charger :=
  if s.timer_on then
    let s := { s with pwm_count := u8 (s.pwm_count + 1) }
    if s.pwm_count ≤ s.duty_cycle then
      { s with cur_state := STATES.INTEGRATE }
    else if s.pwm_count > s.duty_cycle ∧ s.pwm_count < 100 then
      { s with cur_state := STATES.MPPT }
    else if s.pwm_count ≥ 100 then
      { s with pwm_count := 0 }
    else s
  else s

/-- Source: `init_charger()`. -/
def init_charger (cfg : Config) (r : Readings) (s : Charger) : Charger :=
  let s := { s with pwm_count := 0 }
  let s := { s with num_integrals := 0 }
  let s := { s with integral := 0 }
  let s := { s with new_integral := false }
  let s := { s with integral_avg := 0 }
  let s := { s with duty_inc := true }
  let s := { s with p_cur := 0, p_prev := 0 }
  let s := check_battery cfg r s
  let s := check_solar r s
  let s := { s with vl_prev := r.VL_MEAS }
  let s := { s with duty_cycle :=
    cfg.arith.toChar (cfg.arith.mul 100 (cfg.arith.div s.v_battery s.v_solar)) }
  let s := { s with t_cur := u32 r.micros, t_prev := u32 r.micros }
  let s := { s with cur_state := STATES.INTEGRATE }
  { s with timer_on := true }

/-- The term `integrate()` adds to `integral`: the trapezoid between the
previous and the current sample, the lower sample first. -/
def trapezoid (cfg : Config) (s : Charger) : Rat :=
  if s.vl_cur ≥ s.vl_prev then
    cfg.arith.mul
      (cfg.arith.add s.vl_prev (cfg.arith.div (cfg.arith.sub s.vl_cur s.vl_prev) 2))
      (cfg.arith.ofULong (u32 (s.t_cur + 2 ^ 32 - s.t_prev)))
  else
    cfg.arith.mul
      (cfg.arith.add s.vl_cur (cfg.arith.div (cfg.arith.sub s.vl_prev s.vl_cur) 2))
      (cfg.arith.ofULong (u32 (s.t_cur + 2 ^ 32 - s.t_prev)))

/-- Source: `integrate()`. -/
def integrate (cfg : Config) (r : Readings) (s : Charger) : Charger × List Effect :=
  let out := if !s.new_integral then [Effect.digitalWrite true] else []
  let s := { s with new_integral := true }
  let s := { s with t_cur := u32 r.micros }
  let s := { s with vl_cur := r.VL_MEAS }
  let s := { s with integral :=
    cfg.arith.toLong (cfg.arith.add (cfg.arith.ofLong s.integral) (trapezoid cfg s)) }
  let s := { s with t_prev := s.t_cur }
  let s := { s with vl_prev := s.vl_cur }
  (s, out)

/-- First part of `mppt()`: both samples are read and the two cutoff tests
are applied. -/
def mppt_checks (cfg : Config) (r : Readings) (s : Charger) : Charger :=
  let s := check_battery cfg r s
  let s := check_solar r s
  if cfg.arith.div (cfg.arith.mul s.v_solar (cfg.D_MAX : Rat)) 100 < s.v_battery then
    { s with timer_on := false, cur_state := STATES.DONE_CHG }
  else s

/-- Second part of `mppt()`: the block guarded by `new_integral`. -/
def mppt_fold (s : Charger) : Charger × List Effect :=
  if s.new_integral then
    let s := { s with integral_avg := i32 (s.integral_avg + s.integral) }
    let s := { s with integral_avg := s.integral_avg >>> 1 }
    let s := { s with num_integrals := u8 (s.num_integrals + 1) }
    let s := { s with new_integral := false }
    let s := { s with integral := 0 }
    (s, [Effect.digitalWrite false])
  else (s, [])

/-- Third part of `mppt()`: the block guarded by `num_integrals == NUM_INT`,
the perturb-and-observe decision. -/
def mppt_decision (cfg : Config) (s : Charger) : Charger :=
  if s.num_integrals = cfg.NUM_INT then
    let s := { s with p_cur := cfg.arith.mul s.v_battery (cfg.arith.ofLong s.integral_avg) }
    let s :=
      if s.p_cur - s.p_prev > 0 then
        if s.duty_inc then
          let s := { s with duty_cycle := u8 (s.duty_cycle + 1) }
          let s := if s.duty_cycle ≥ cfg.D_MAX then { s with duty_cycle := u8 cfg.D_MAX } else s
          { s with duty_inc := true }
        else
          let s := { s with duty_cycle := u8 (s.duty_cycle + 255) }
          let s := if s.duty_cycle ≤ cfg.D_MIN then { s with duty_cycle := u8 cfg.D_MIN } else s
          { s with duty_inc := false }
      else if s.p_cur - s.p_prev < 0 then
        if s.duty_inc then
          let s := { s with duty_cycle := u8 (s.duty_cycle + 255) }
          let s := if s.duty_cycle ≤ cfg.D_MIN then { s with duty_cycle := u8 cfg.D_MIN } else s
          { s with duty_inc := false }
        else
          let s := { s with duty_cycle := u8 (s.duty_cycle + 1) }
          let s := if s.duty_cycle ≥ cfg.D_MAX then { s with duty_cycle := u8 cfg.D_MAX } else s
          { s with duty_inc := true }
      else s
    let s := { s with p_prev := s.p_cur }
    { s with num_integrals := 0 }
  else s

/-- Source: `mppt()`. -/
def mppt (cfg : Config) (r : Readings) (s : Charger) : Charger × List Effect :=
  let s := mppt_checks cfg r s
  let (s, out) := mppt_fold s
  (mppt_decision cfg s, out)

/-- A call of `mppt()` performs the perturb-and-observe decision when the
test `num_integrals == NUM_INT` that guards its third block succeeds. -/
abbrev mppt_decides (cfg : Config) (r : Readings) (s : Charger) : Prop :=
  (mppt_fold (mppt_checks cfg r s)).1.num_integrals = cfg.NUM_INT

/-- Source: `done_charging()`.  The record returned is the one at the call of
`resetFunc()`. -/
def done_charging (cfg : Config) (r : Readings) (s : Charger) : Charger × List Effect :=
  let s := { s with timer_on := false }
  let s := check_battery cfg r s
  let s := check_solar r s
  let s :=
    if s.v_battery < cfg.VCHARGE ∧
        cfg.arith.div (cfg.arith.mul s.v_solar (cfg.D_MAX : Rat)) 100 ≥ s.v_battery then
      { s with cur_state := STATES.INIT_CHG }
    else s
  (s, [Effect.digitalWrite false, Effect.delay (cfg.SLEEP_TIME * 1000), Effect.resetFunc])

/-- Source: `charger_state_machine()`. -/
def charger_state_machine (cfg : Config) (r : Readings) (s : Charger) :
    Charger × List Effect :=
  match s.cur_state with
  | STATES.INIT_CHG => (init_charger cfg r s, [])
  | STATES.INTEGRATE => integrate cfg r s
  | STATES.MPPT => mppt cfg r s
  | STATES.DONE_CHG => done_charging cfg r s

/-- Source: `charger_state_machine()` is the only caller of `integrate()` and
`mppt()`; a `Call` is one such call together with what it reads. -/
inductive Call where
  | integrate (r : Readings)
  | mppt (r : Readings)
deriving DecidableEq, Repr

/-- Execution of one call. -/
def Call.exec (cfg : Config) (c : Call) (s : Charger) : Charger × List Effect :=
  match c with
  | Call.integrate r => SolarCharger.integrate cfg r s
  | Call.mppt r => SolarCharger.mppt cfg r s

/-- Execution of a sequence of calls, oldest first: the final record and all
commands emitted, in order. -/
def run (cfg : Config) : List Call → Charger → Charger × List Effect
  | [], s => (s, [])
  | c :: cs, s => ((run cfg cs (c.exec cfg s).1).1, (c.exec cfg s).2 ++ (run cfg cs (c.exec cfg s).1).2)

/-- Bookkeeping of integration windows along a call sequence: the number of
windows completed so far, and whether a window is open.  A window is a
maximal block of consecutive `integrate()` calls; it is completed by the
first `mppt()` call that follows it. -/
def trackWindows (acc : Nat × Bool) (c : Call) : Nat × Bool :=
  match c with
  | Call.integrate _ => (acc.1, true)
  | Call.mppt _ => (if acc.2 then acc.1 + 1 else acc.1, false)

/-- Number of integration windows completed by a call sequence that starts
outside a window. -/
def windowsCompleted (cs : List Call) : Nat := (cs.foldl trackWindows (0, false)).1

/-- Whether a call sequence that starts outside a window ends inside one. -/
def windowOpen (cs : List Call) : Bool := (cs.foldl trackWindows (0, false)).2

/-! ## Concrete configurations, records and readings -/

/-- Configuration of the scenarios: `D_MIN = 10`, `D_MAX = 90`, a decision
after every window, arithmetic without rounding. -/
def cfgA : Config :=
  { D_MIN := 10, D_MAX := 90, NUM_INT := 1, VCHARGE := 14, SLEEP_TIME := 60,
    arith := exactArith }

/-- Configuration with a lower duty bound of zero. -/
def cfgZ : Config :=
  { D_MIN := 0, D_MAX := 90, NUM_INT := 1, VCHARGE := 14, SLEEP_TIME := 60,
    arith := exactArith }

/-- Record in the sense phase at 50 percent, one window integrated,
`p_prev = 0`, direction memory set. -/
def sA : Charger :=
  { cur_state := STATES.MPPT, duty_cycle := 50, v_solar := 20, v_battery := 10,
    vl_cur := 0, vl_prev := 0, p_cur := 0, p_prev := 0, integral := 20,
    t_cur := 0, t_prev := 0, num_integrals := 0, integral_avg := 0,
    pwm_count := 60, new_integral := true, timer_on := true, duty_inc := true }

/-- Readings with a battery at 10 V and a panel at 20 V. -/
def rA : Readings := { VBAT_MEAS := 10, VSOL_MEAS := 20, VL_MEAS := 0, micros := 0 }

/-- Readings with a battery at 9 V and a panel at 20 V. -/
def rB : Readings := { VBAT_MEAS := 9, VSOL_MEAS := 20, VL_MEAS := 0, micros := 0 }

/-- Inductor reading of 2 V taken 10 microseconds after time 0. -/
def rI : Readings := { VBAT_MEAS := 10, VSOL_MEAS := 20, VL_MEAS := 2, micros := 10 }

/-- Readings with the battery at the charge level. -/
def rFull : Readings := { VBAT_MEAS := 14, VSOL_MEAS := 20, VL_MEAS := 0, micros := 0 }

/-- Readings with a panel at 10 V against a battery at 12 V. -/
def rDark : Readings := { VBAT_MEAS := 12, VSOL_MEAS := 10, VL_MEAS := 0, micros := 0 }

/-- Record at the lower bound of `cfgZ`, direction memory cleared. -/
def sZ : Charger := { sA with duty_cycle := 0, duty_inc := false }

/-- Record at the upper bound of `cfgA`, direction memory set. -/
def sMax : Charger := { sA with duty_cycle := 90 }

/-- Record after the first decision of the scenario and one further window. -/
def sA2 : Charger := (integrate cfgA rI (mppt cfgA rA sA).1).1

/-- Record whose open window integrated to zero, so that the next power proxy
equals `p_prev = 0`. -/
def sEq : Charger := { sA with integral := 0 }

/-- Record on the last tick of a period in the sense phase:
`pwm_count = 99`, `duty_cycle = 50`, `cur_state = MPPT`. -/
def sWrapSense : Charger := { sA with pwm_count := 99, duty_cycle := 50 }

/-- Record on the last tick of a period at 99 percent, still in the charge
phase: `pwm_count = 99`, `duty_cycle = 99`, `cur_state = INTEGRATE`. -/
def sWrapCharge : Charger :=
  { sA with pwm_count := 99, duty_cycle := 99, cur_state := STATES.INTEGRATE }

/-- Record in the middle of a period: `pwm_count = 50`, `duty_cycle = 50`. -/
def sMid : Charger := { sA with pwm_count := 50, duty_cycle := 50 }

/-- Configuration that decides after every second window. -/
def cfg2 : Config :=
  { D_MIN := 10, D_MAX := 90, NUM_INT := 2, VCHARGE := 14, SLEEP_TIME := 60,
    arith := exactArith }

/-- Record as `init_charger()` leaves it for a battery at 10 V under a panel
at 20 V. -/
def sInit : Charger := init_charger cfg2 rA sA

/-- Calls of one window, the sense phase that follows it, and a second window. -/
def callsA : List Call := [Call.integrate rI, Call.mppt rA, Call.mppt rA, Call.integrate rI]

/-- Specification side of the window integral: the trapezoid between two
consecutive samples of one window, the lower voltage first. -/
def spec_trapezoid (a b : Readings) : Rat :=
  (min a.VL_MEAS b.VL_MEAS + (max a.VL_MEAS b.VL_MEAS - min a.VL_MEAS b.VL_MEAS) / 2) *
    ((b.micros - a.micros : Nat) : Rat)

/-- Specification side of the window integral: the trapezoidal sum over the
samples of one window alone, that is over each pair of consecutive samples
taken by the `integrate()` calls of that window. -/
def spec_window_integral : List Readings → Rat
  | a :: b :: rest => spec_trapezoid a b + spec_window_integral (b :: rest)
  | _ => 0

/-- Record in `DONE_CHG` with the timer off. -/
def sDone : Charger := { sA with cur_state := STATES.DONE_CHG, timer_on := false }

/-- Readings with a battery at 1 V under a panel at 20 V. -/
def rLow : Readings := { VBAT_MEAS := 1, VSOL_MEAS := 20, VL_MEAS := 0, micros := 0 }

/-- Readings with a battery at 13 V under a panel at 14 V. -/
def rHigh : Readings := { VBAT_MEAS := 13, VSOL_MEAS := 14, VL_MEAS := 0, micros := 0 }

/-- The record `sA` with another inductor sample left in `vl_cur`. -/
def sOther : Charger := { sA with vl_cur := 1 }

/-- Record whose open window integrated to `-3` on an average of 0. -/
def sNeg : Charger := { sA with integral := -3 }

/-- Record in the sense phase with no open window. -/
def sIdle : Charger := { sA with new_integral := false }

/-- Record after `init_charger()`, a first window with one sample at 10
microseconds and the `mppt()` call that folds it: `integral = 0`,
`new_integral = false`, and the last sample of that window is left in
`t_prev = 10`, `vl_prev = 2`. -/
def sGap : Charger := (run cfg2 [Call.integrate rI, Call.mppt rA] sInit).1

/-- The same record with a later sample left behind: `t_prev = 990`. -/
def sGapLate : Charger := { sGap with t_prev := 990 }

/-- First sample of the second window: 2 V at 1000 microseconds. -/
def rW1 : Readings := { VBAT_MEAS := 10, VSOL_MEAS := 20, VL_MEAS := 2, micros := 1000 }

/-- Second sample of the second window: 2 V at 1010 microseconds. -/
def rW2 : Readings := { VBAT_MEAS := 10, VSOL_MEAS := 20, VL_MEAS := 2, micros := 1010 }

/-- The record inside `integrate()` once `t_cur` and `vl_cur` hold the new
sample; the trapezoid is computed on it. -/
def integrate_sampled (r : Readings) (s : Charger) : Charger :=
  { s with new_integral := true, t_cur := u32 r.micros, vl_cur := r.VL_MEAS }

/-- Elapsed time `t_cur - t_prev` in `unsigned long` arithmetic. -/
def elapsed (s : Charger) : Nat := u32 (s.t_cur + 2 ^ 32 - s.t_prev)

/-- The record `s` with its two inductor samples exchanged. -/
def swapSamples (s : Charger) : Charger := { s with vl_prev := s.vl_cur, vl_cur := s.vl_prev }

/-- Record on the last tick of the charge phase: `pwm_count = 50`,
`duty_cycle = 50`, `cur_state = INTEGRATE`. -/
def sLastCharge : Charger :=
  { sA with pwm_count := 50, duty_cycle := 50, cur_state := STATES.INTEGRATE }

/-- Record with two negative inductor samples, 10 microseconds apart. -/
def sNegSamples : Charger := { sA with vl_prev := -2, vl_cur := -4, t_prev := 5, t_cur := 15 }

/-- The assignment to `cur_state` that one call of `pwm_handler()` executes,
if any: `INTEGRATE` in the first arm, `MPPT` in the second, none in the arm
that resets the counter and none while the timer is off. -/
def pwm_select (s : Charger) : Option STATES :=
  if s.timer_on then
    let s := { s with pwm_count := u8 (s.pwm_count + 1) }
    if s.pwm_count ≤ s.duty_cycle then
      some STATES.INTEGRATE
    else if s.pwm_count > s.duty_cycle ∧ s.pwm_count < 100 then
      some STATES.MPPT
    else none
  else none

/-- The assignments to `cur_state` executed by `n` consecutive calls of
`pwm_handler()`, oldest first. -/
def pwm_ticks : Nat → Charger → List (Option STATES)
  | 0, _ => []
  | n + 1, s => pwm_select s :: pwm_ticks n (pwm_handler s)

/-- Record at the start of a switching period at 30 percent. -/
def sPeriod : Charger := { sA with pwm_count := 0, duty_cycle := 30 }

/-- Record at the start of a switching period at 99 percent. -/
def sPeriod99 : Charger := { sA with pwm_count := 0, duty_cycle := 99 }

/-- Record after the cutoff of `mppt()` on a full battery. -/
def sCut : Charger := (mppt cfgA rFull sA).1

/-! # Theorems -/

/-! ## Frame lemmas for the first two blocks of `mppt()` -/

theorem mppt_unfold (cfg : Config) (r : Readings) (s : Charger) :
    (mppt cfg r s).1 = mppt_decision cfg (mppt_fold (mppt_checks cfg r s)).1 := rfl

theorem mppt_effects (cfg : Config) (r : Readings) (s : Charger) :
    (mppt cfg r s).2 = (mppt_fold (mppt_checks cfg r s)).2 := rfl

theorem check_battery_frame (cfg : Config) (r : Readings) (s : Charger) :
    (check_battery cfg r s).duty_cycle = s.duty_cycle ∧
    (check_battery cfg r s).duty_inc = s.duty_inc ∧
    (check_battery cfg r s).p_prev = s.p_prev ∧
    (check_battery cfg r s).num_integrals = s.num_integrals ∧
    (check_battery cfg r s).new_integral = s.new_integral ∧
    (check_battery cfg r s).integral = s.integral ∧
    (check_battery cfg r s).integral_avg = s.integral_avg ∧
    (check_battery cfg r s).v_battery = r.VBAT_MEAS ∧
    (check_battery cfg r s).v_solar = s.v_solar := by
  unfold check_battery
  dsimp only
  split <;> simp

theorem mppt_checks_frame (cfg : Config) (r : Readings) (s : Charger) :
    (mppt_checks cfg r s).duty_cycle = s.duty_cycle ∧
    (mppt_checks cfg r s).duty_inc = s.duty_inc ∧
    (mppt_checks cfg r s).p_prev = s.p_prev ∧
    (mppt_checks cfg r s).num_integrals = s.num_integrals ∧
    (mppt_checks cfg r s).new_integral = s.new_integral ∧
    (mppt_checks cfg r s).integral = s.integral ∧
    (mppt_checks cfg r s).integral_avg = s.integral_avg ∧
    (mppt_checks cfg r s).v_battery = r.VBAT_MEAS ∧
    (mppt_checks cfg r s).v_solar = r.VSOL_MEAS := by
  obtain ⟨h1, h2, h3, h4, h5, h6, h7, h8, -⟩ := check_battery_frame cfg r s
  unfold mppt_checks check_solar
  dsimp only
  split <;> simp [h1, h2, h3, h4, h5, h6, h7, h8]

theorem mppt_fold_frame (s : Charger) :
    (mppt_fold s).1.duty_cycle = s.duty_cycle ∧
    (mppt_fold s).1.duty_inc = s.duty_inc ∧
    (mppt_fold s).1.p_prev = s.p_prev ∧
    (mppt_fold s).1.v_battery = s.v_battery ∧
    (mppt_fold s).1.cur_state = s.cur_state ∧
    (mppt_fold s).1.timer_on = s.timer_on := by
  unfold mppt_fold
  split <;> simp

theorem mppt_decision_frame (cfg : Config) (s : Charger) :
    (mppt_decision cfg s).cur_state = s.cur_state ∧
    (mppt_decision cfg s).timer_on = s.timer_on := by
  unfold mppt_decision
  dsimp only
  split_ifs <;> simp

/-- Bounds of the duty cycle through the decision block, from a duty cycle of
at least 1. -/
theorem mppt_decision_bounds (cfg : Config) (s : Charger)
    (hpos : 1 ≤ s.duty_cycle) (hmax : cfg.D_MAX ≤ 100)
    (hlo : cfg.D_MIN ≤ s.duty_cycle) (hhi : s.duty_cycle ≤ cfg.D_MAX) :
    cfg.D_MIN ≤ (mppt_decision cfg s).duty_cycle ∧
      (mppt_decision cfg s).duty_cycle ≤ cfg.D_MAX := by
  unfold mppt_decision u8
  dsimp only
  split_ifs <;> (try dsimp only) <;> omega

/-! ## The perturb-and-observe decision -/

/-- C1 (the code at the failing input): with `D_MIN = 0 ≤ D_MAX = 90` and
`duty_cycle = 0`, inside the bounds, a decision that decrements takes
`--duty_cycle` to 255 in the `unsigned char`; the test `<= D_MIN` then fails
and `mppt()` returns `duty_cycle = 255`, above `D_MAX`. -/
theorem mppt_duty_cycle_escapes_at_D_MIN_zero :
    cfgZ.D_MIN ≤ cfgZ.D_MAX ∧ cfgZ.D_MAX ≤ 100 ∧
    cfgZ.D_MIN ≤ sZ.duty_cycle ∧ sZ.duty_cycle ≤ cfgZ.D_MAX ∧
    (mppt cfgZ rA sZ).1.duty_cycle = 255 ∧
    ¬ (mppt cfgZ rA sZ).1.duty_cycle ≤ cfgZ.D_MAX := by
  with_unfolding_all decide

/-- Where the clamps of the decision do hold: when `D_MAX ≤ 100`, every call
of `mppt()` from a record with `D_MIN ≤ duty_cycle ≤ D_MAX` and
`1 ≤ duty_cycle` returns a record with `D_MIN ≤ duty_cycle ≤ D_MAX`, whatever
the readings and the other fields.  The only records inside the bounds that
this leaves out are those with `duty_cycle = 0 = D_MIN`. -/
theorem mppt_duty_cycle_bounds (cfg : Config) (r : Readings) (s : Charger)
    (hpos : 1 ≤ s.duty_cycle) (hmax : cfg.D_MAX ≤ 100)
    (hlo : cfg.D_MIN ≤ s.duty_cycle) (hhi : s.duty_cycle ≤ cfg.D_MAX) :
    cfg.D_MIN ≤ (mppt cfg r s).1.duty_cycle ∧ (mppt cfg r s).1.duty_cycle ≤ cfg.D_MAX := by
  rw [mppt_unfold]
  have hd : (mppt_fold (mppt_checks cfg r s)).1.duty_cycle = s.duty_cycle := by
    rw [(mppt_fold_frame _).1, (mppt_checks_frame cfg r s).1]
  apply mppt_decision_bounds cfg _ (by rw [hd]; exact hpos) hmax
  · rw [hd]; exact hlo
  · rw [hd]; exact hhi

/-- The bounds at the scenario record under `D_MIN = 10`, `D_MAX = 90`. -/
theorem mppt_duty_cycle_bounds_witness :
    1 ≤ sA.duty_cycle ∧ cfgA.D_MAX ≤ 100 ∧
    cfgA.D_MIN ≤ sA.duty_cycle ∧ sA.duty_cycle ≤ cfgA.D_MAX ∧
    cfgA.D_MIN ≤ (mppt cfgA rA sA).1.duty_cycle ∧
    (mppt cfgA rA sA).1.duty_cycle ≤ cfgA.D_MAX :=
  ⟨by decide, by decide, by decide, by decide,
    mppt_duty_cycle_bounds cfgA rA sA (by decide) (by decide) (by decide) (by decide)⟩

/-- What the decision block does when the power proxy went up. -/
theorem mppt_decision_increase (cfg : Config) (s : Charger)
    (hmin : 1 ≤ cfg.D_MIN) (hmax : cfg.D_MAX ≤ 100)
    (hlo : cfg.D_MIN ≤ s.duty_cycle) (hhi : s.duty_cycle ≤ cfg.D_MAX)
    (hd : s.num_integrals = cfg.NUM_INT)
    (hp : cfg.arith.mul s.v_battery (cfg.arith.ofLong s.integral_avg) - s.p_prev > 0) :
    (s.duty_inc = true →
      (mppt_decision cfg s).duty_cycle = min (s.duty_cycle + 1) cfg.D_MAX ∧
      (mppt_decision cfg s).duty_inc = true) ∧
    (s.duty_inc = false →
      (mppt_decision cfg s).duty_cycle = max (s.duty_cycle - 1) cfg.D_MIN ∧
      (mppt_decision cfg s).duty_inc = false) := by
  unfold mppt_decision u8
  simp only [hd, if_true, hp]
  constructor
  · intro hi
    simp only [hi, if_true]
    split_ifs <;> simp <;> omega
  · intro hi
    simp only [hi, Bool.false_eq_true, if_false]
    split_ifs <;> simp <;> omega

/-- What the decision block does when the power proxy went down. -/
theorem mppt_decision_decrease (cfg : Config) (s : Charger)
    (hmin : 1 ≤ cfg.D_MIN) (hmax : cfg.D_MAX ≤ 100)
    (hlo : cfg.D_MIN ≤ s.duty_cycle) (hhi : s.duty_cycle ≤ cfg.D_MAX)
    (hd : s.num_integrals = cfg.NUM_INT)
    (hp : cfg.arith.mul s.v_battery (cfg.arith.ofLong s.integral_avg) - s.p_prev < 0) :
    (s.duty_inc = true →
      (mppt_decision cfg s).duty_cycle = max (s.duty_cycle - 1) cfg.D_MIN ∧
      (mppt_decision cfg s).duty_inc = false) ∧
    (s.duty_inc = false →
      (mppt_decision cfg s).duty_cycle = min (s.duty_cycle + 1) cfg.D_MAX ∧
      (mppt_decision cfg s).duty_inc = true) := by
  have hn : ¬ (cfg.arith.mul s.v_battery (cfg.arith.ofLong s.integral_avg) - s.p_prev > 0) := not_lt.mpr hp.le
  unfold mppt_decision u8
  simp only [hd, if_true, hp, hn, if_false]
  constructor
  · intro hi
    simp only [hi, if_true]
    split_ifs <;> simp <;> omega
  · intro hi
    simp only [hi, Bool.false_eq_true, if_false]
    split_ifs <;> simp <;> omega

/-- The power proxy a deciding call leaves in `p_cur`. -/
theorem mppt_decision_p_cur (cfg : Config) (s : Charger)
    (hd : s.num_integrals = cfg.NUM_INT) :
    (mppt_decision cfg s).p_cur = cfg.arith.mul s.v_battery (cfg.arith.ofLong s.integral_avg) := by
  unfold mppt_decision
  simp only [hd, if_true]
  split_ifs <;> rfl

/-- C2: when `1 ≤ D_MIN ≤ duty_cycle ≤ D_MAX ≤ 100` and a call of `mppt()`
performs the decision with the new power proxy `p_cur` above the stored
`p_prev`, the controller continues in the remembered direction: with
`duty_inc` set the duty cycle becomes `min (duty_cycle + 1) D_MAX` and
`duty_inc` stays set; with `duty_inc` cleared it becomes
`max (duty_cycle - 1) D_MIN` and `duty_inc` stays cleared. -/
theorem mppt_power_increased (cfg : Config) (r : Readings) (s : Charger)
    (hmin : 1 ≤ cfg.D_MIN) (hmax : cfg.D_MAX ≤ 100)
    (hlo : cfg.D_MIN ≤ s.duty_cycle) (hhi : s.duty_cycle ≤ cfg.D_MAX)
    (hd : mppt_decides cfg r s)
    (hp : (mppt cfg r s).1.p_cur > s.p_prev) :
    (s.duty_inc = true →
      (mppt cfg r s).1.duty_cycle = min (s.duty_cycle + 1) cfg.D_MAX ∧
      (mppt cfg r s).1.duty_inc = true) ∧
    (s.duty_inc = false →
      (mppt cfg r s).1.duty_cycle = max (s.duty_cycle - 1) cfg.D_MIN ∧
      (mppt cfg r s).1.duty_inc = false) ∧
    (mppt cfg r s).1.duty_inc = s.duty_inc := by
  obtain ⟨c1, c2, c3, -⟩ := mppt_checks_frame cfg r s
  obtain ⟨f1, f2, f3, -⟩ := mppt_fold_frame (mppt_checks cfg r s)
  rw [mppt_unfold, mppt_decision_p_cur cfg _ hd] at hp
  have hp2 : cfg.arith.mul (mppt_fold (mppt_checks cfg r s)).1.v_battery
      (cfg.arith.ofLong (mppt_fold (mppt_checks cfg r s)).1.integral_avg) -
      (mppt_fold (mppt_checks cfg r s)).1.p_prev > 0 := by
    rw [f3, c3]; exact sub_pos.mpr hp
  have key := mppt_decision_increase cfg (mppt_fold (mppt_checks cfg r s)).1 hmin hmax
    (by rw [f1, c1]; exact hlo) (by rw [f1, c1]; exact hhi) hd hp2
  rw [f1, f2, c1, c2] at key
  rw [mppt_unfold]
  refine ⟨key.1, key.2, ?_⟩
  cases hi : s.duty_inc
  · exact (key.2 hi).2
  · exact (key.1 hi).2

/-- Witness of C2: from 50 percent with `D_MIN = 10`, `D_MAX = 90`,
`p_prev = 0` and a new proxy of 100, the duty cycle becomes 51 and `duty_inc`
stays set; from 90 percent it stays at 90. -/
theorem mppt_power_increased_witness :
    (mppt cfgA rA sA).1.p_cur = 100 ∧ sA.p_prev = 0 ∧ sA.duty_cycle = 50 ∧
    (mppt cfgA rA sA).1.duty_cycle = 51 ∧ (mppt cfgA rA sA).1.duty_inc = true ∧
    sMax.duty_cycle = 90 ∧ (mppt cfgA rA sMax).1.duty_cycle = 90 :=
  ⟨by with_unfolding_all decide, by with_unfolding_all decide, by decide,
    ((mppt_power_increased cfgA rA sA (by decide) (by decide) (by decide) (by decide)
      (by with_unfolding_all decide) (by with_unfolding_all decide)).1 (by decide)).1.trans
        (by decide),
    ((mppt_power_increased cfgA rA sA (by decide) (by decide) (by decide) (by decide)
      (by with_unfolding_all decide) (by with_unfolding_all decide)).1 (by decide)).2,
    by decide,
    ((mppt_power_increased cfgA rA sMax (by decide) (by decide) (by decide) (by decide)
      (by with_unfolding_all decide) (by with_unfolding_all decide)).1 (by decide)).1.trans
        (by decide)⟩

/-- C3: when `1 ≤ D_MIN ≤ duty_cycle ≤ D_MAX ≤ 100` and a call of `mppt()`
performs the decision with the new power proxy `p_cur` below the stored
`p_prev`, the controller reverses: with `duty_inc` set the duty cycle becomes
`max (duty_cycle - 1) D_MIN` and `duty_inc` is cleared; with `duty_inc`
cleared it becomes `min (duty_cycle + 1) D_MAX` and `duty_inc` is set. -/
theorem mppt_power_decreased (cfg : Config) (r : Readings) (s : Charger)
    (hmin : 1 ≤ cfg.D_MIN) (hmax : cfg.D_MAX ≤ 100)
    (hlo : cfg.D_MIN ≤ s.duty_cycle) (hhi : s.duty_cycle ≤ cfg.D_MAX)
    (hd : mppt_decides cfg r s)
    (hp : (mppt cfg r s).1.p_cur < s.p_prev) :
    (s.duty_inc = true →
      (mppt cfg r s).1.duty_cycle = max (s.duty_cycle - 1) cfg.D_MIN ∧
      (mppt cfg r s).1.duty_inc = false) ∧
    (s.duty_inc = false →
      (mppt cfg r s).1.duty_cycle = min (s.duty_cycle + 1) cfg.D_MAX ∧
      (mppt cfg r s).1.duty_inc = true) := by
  obtain ⟨c1, c2, c3, -⟩ := mppt_checks_frame cfg r s
  obtain ⟨f1, f2, f3, -⟩ := mppt_fold_frame (mppt_checks cfg r s)
  rw [mppt_unfold, mppt_decision_p_cur cfg _ hd] at hp
  have hp2 : cfg.arith.mul (mppt_fold (mppt_checks cfg r s)).1.v_battery
      (cfg.arith.ofLong (mppt_fold (mppt_checks cfg r s)).1.integral_avg) -
      (mppt_fold (mppt_checks cfg r s)).1.p_prev < 0 := by
    rw [f3, c3]; exact sub_neg.mpr hp
  have key := mppt_decision_decrease cfg (mppt_fold (mppt_checks cfg r s)).1 hmin hmax
    (by rw [f1, c1]; exact hlo) (by rw [f1, c1]; exact hhi) hd hp2
  rw [f1, f2, c1, c2] at key
  rw [mppt_unfold]
  exact key

/-- Witness of C3: after the decision 50 to 51 (proxy 100) and one more
window, a decision with proxy 90 returns to 50 and clears `duty_inc`. -/
theorem mppt_power_decreased_witness :
    sA2.duty_cycle = 51 ∧ sA2.p_prev = 100 ∧ sA2.duty_inc = true ∧
    (mppt cfgA rB sA2).1.p_cur = 90 ∧
    (mppt cfgA rB sA2).1.duty_cycle = 50 ∧ (mppt cfgA rB sA2).1.duty_inc = false ∧
    ((sA2.duty_inc = true →
      (mppt cfgA rB sA2).1.duty_cycle = max (sA2.duty_cycle - 1) cfgA.D_MIN ∧
      (mppt cfgA rB sA2).1.duty_inc = false) ∧
    (sA2.duty_inc = false →
      (mppt cfgA rB sA2).1.duty_cycle = min (sA2.duty_cycle + 1) cfgA.D_MAX ∧
      (mppt cfgA rB sA2).1.duty_inc = true)) :=
  ⟨by with_unfolding_all decide, by with_unfolding_all decide,
    by with_unfolding_all decide, by with_unfolding_all decide,
    by with_unfolding_all decide, by with_unfolding_all decide,
    mppt_power_decreased cfgA rB sA2 (by decide) (by decide)
      (by with_unfolding_all decide) (by with_unfolding_all decide)
      (by with_unfolding_all decide) (by with_unfolding_all decide)⟩

/-- C4: when a call of `mppt()` performs the decision and the new power proxy
equals the stored one, `duty_cycle` and `duty_inc` keep their values, while
`p_prev` is set to the new proxy and `num_integrals` is reset to 0. -/
theorem mppt_power_equal (cfg : Config) (r : Readings) (s : Charger)
    (hd : mppt_decides cfg r s)
    (hp : (mppt cfg r s).1.p_cur = s.p_prev) :
    (mppt cfg r s).1.duty_cycle = s.duty_cycle ∧
    (mppt cfg r s).1.duty_inc = s.duty_inc ∧
    (mppt cfg r s).1.p_prev = (mppt cfg r s).1.p_cur ∧
    (mppt cfg r s).1.num_integrals = 0 := by
  obtain ⟨c1, c2, c3, -⟩ := mppt_checks_frame cfg r s
  obtain ⟨f1, f2, f3, -⟩ := mppt_fold_frame (mppt_checks cfg r s)
  rw [mppt_unfold, mppt_decision_p_cur cfg _ hd] at hp
  have hp2 : cfg.arith.mul (mppt_fold (mppt_checks cfg r s)).1.v_battery
      (cfg.arith.ofLong (mppt_fold (mppt_checks cfg r s)).1.integral_avg) -
      (mppt_fold (mppt_checks cfg r s)).1.p_prev = 0 := by
    rw [f3, c3]; exact sub_eq_zero.mpr hp
  have hd2 : (mppt_fold (mppt_checks cfg r s)).1.num_integrals = cfg.NUM_INT := hd
  rw [mppt_unfold, ← c1, ← c2, ← f1, ← f2]
  generalize (mppt_fold (mppt_checks cfg r s)).1 = t at hd2 hp2 ⊢
  unfold mppt_decision
  simp [hd2, hp2]

/-- Witness of C4: a window that integrated to zero leaves the proxy at
`p_prev = 0`; duty cycle and direction are kept. -/
theorem mppt_power_equal_witness :
    mppt_decides cfgA rA sEq ∧ (mppt cfgA rA sEq).1.p_cur = sEq.p_prev ∧
    ((mppt cfgA rA sEq).1.duty_cycle = sEq.duty_cycle ∧
    (mppt cfgA rA sEq).1.duty_inc = sEq.duty_inc ∧
    (mppt cfgA rA sEq).1.p_prev = (mppt cfgA rA sEq).1.p_cur ∧
    (mppt cfgA rA sEq).1.num_integrals = 0) :=
  ⟨by with_unfolding_all decide, by with_unfolding_all decide,
    mppt_power_equal cfgA rA sEq (by with_unfolding_all decide)
      (by with_unfolding_all decide)⟩

/-! ## The two cutoffs -/

/-- The cutoff tests of `mppt()` decide the final `cur_state` and `timer_on`:
the later blocks write neither. -/
theorem mppt_state_of_checks (cfg : Config) (r : Readings) (s : Charger) :
    (mppt cfg r s).1.cur_state = (mppt_checks cfg r s).cur_state ∧
    (mppt cfg r s).1.timer_on = (mppt_checks cfg r s).timer_on := by
  obtain ⟨d1, d2⟩ := mppt_decision_frame cfg (mppt_fold (mppt_checks cfg r s)).1
  obtain ⟨-, -, -, -, f5, f6⟩ := mppt_fold_frame (mppt_checks cfg r s)
  rw [mppt_unfold, d1, d2, f5, f6]
  exact ⟨rfl, rfl⟩

/-- C5: whenever the battery sample read by `mppt()` is at or above `VCHARGE`,
the call returns with `cur_state = DONE_CHG` and `timer_on = false`, for every
record at entry and every solar sample. -/
theorem mppt_battery_full (cfg : Config) (r : Readings) (s : Charger)
    (h : r.VBAT_MEAS ≥ cfg.VCHARGE) :
    (mppt cfg r s).1.cur_state = STATES.DONE_CHG ∧ (mppt cfg r s).1.timer_on = false := by
  obtain ⟨m1, m2⟩ := mppt_state_of_checks cfg r s
  rw [m1, m2]
  unfold mppt_checks check_solar check_battery
  dsimp only
  rw [if_pos h]
  split <;> exact ⟨rfl, rfl⟩

/-- Witness of C5: a battery sample equal to `VCHARGE = 14` ends the charge,
here in a call that also folds a window and decides. -/
theorem mppt_battery_full_witness :
    rFull.VBAT_MEAS ≥ cfgA.VCHARGE ∧ mppt_decides cfgA rFull sA ∧
    ((mppt cfgA rFull sA).1.cur_state = STATES.DONE_CHG ∧
      (mppt cfgA rFull sA).1.timer_on = false) :=
  ⟨by with_unfolding_all decide, by with_unfolding_all decide,
    mppt_battery_full cfgA rFull sA (by with_unfolding_all decide)⟩

/-- C6: whenever the samples read by `mppt()` satisfy
`v_solar * D_MAX / 100 < v_battery`, the product and the quotient being
those of the target arithmetic, as the test of `mppt()` computes them, the
call returns with `cur_state = DONE_CHG` and `timer_on = false`, for every
record at entry and every arithmetic, also when the battery sample is below
`VCHARGE`. -/
theorem mppt_insufficient_solar (cfg : Config) (r : Readings) (s : Charger)
    (h : cfg.arith.div (cfg.arith.mul r.VSOL_MEAS (cfg.D_MAX : Rat)) 100 < r.VBAT_MEAS) :
    (mppt cfg r s).1.cur_state = STATES.DONE_CHG ∧ (mppt cfg r s).1.timer_on = false := by
  obtain ⟨m1, m2⟩ := mppt_state_of_checks cfg r s
  obtain ⟨-, -, -, -, -, -, -, b8, -⟩ := check_battery_frame cfg r s
  rw [m1, m2]
  unfold mppt_checks check_solar
  dsimp only
  rw [b8, if_pos h]
  exact ⟨rfl, rfl⟩

/-- Witness of C6: a panel at 10 V cannot sustain a battery at 12 V below
`VCHARGE = 14` (9 against 12, far from any rounding). -/
theorem mppt_insufficient_solar_witness :
    cfgA.arith.div (cfgA.arith.mul rDark.VSOL_MEAS (cfgA.D_MAX : Rat)) 100 < rDark.VBAT_MEAS ∧
    rDark.VBAT_MEAS < cfgA.VCHARGE ∧
    ((mppt cfgA rDark sA).1.cur_state = STATES.DONE_CHG ∧
      (mppt cfgA rDark sA).1.timer_on = false) :=
  ⟨by with_unfolding_all decide, by with_unfolding_all decide,
    mppt_insufficient_solar cfgA rDark sA (by with_unfolding_all decide)⟩

/-! ## The phase scheduler -/

/-- C10 (counterexample): on the tick that wraps the counter `cur_state` is
not written.  From `pwm_count = 99`, `duty_cycle = 50`, `cur_state = MPPT`
the tick ends with `pwm_count = 0 ≤ duty_cycle` and `cur_state = MPPT`, not
`INTEGRATE`; from `pwm_count = 99`, `duty_cycle = 99`, `cur_state = INTEGRATE`
the incremented count 100 exceeds the duty cycle and `cur_state` is not `MPPT`. -/
theorem pwm_handler_wrap_tick_keeps_state :
    (sWrapSense.timer_on = true ∧ sWrapSense.pwm_count < 100 ∧ sWrapSense.duty_cycle ≤ 100 ∧
      (pwm_handler sWrapSense).pwm_count ≤ (pwm_handler sWrapSense).duty_cycle ∧
      (pwm_handler sWrapSense).cur_state ≠ STATES.INTEGRATE) ∧
    (sWrapCharge.timer_on = true ∧ sWrapCharge.pwm_count < 100 ∧
      sWrapCharge.duty_cycle ≤ 100 ∧
      ¬ sWrapCharge.pwm_count + 1 ≤ sWrapCharge.duty_cycle ∧
      (pwm_handler sWrapCharge).cur_state ≠ STATES.MPPT) := by
  decide

/-- C10 (amended): after a tick of `pwm_handler()` taken with `timer_on` set,
`pwm_count` below 100 and `duty_cycle` at most 100: unless the tick wraps the
counter, `cur_state` is `INTEGRATE` exactly when the updated `pwm_count` is at
most `duty_cycle` and is `MPPT` otherwise; on the tick that wraps the counter
(`pwm_count = 99`, `duty_cycle ≤ 99`) `cur_state` keeps its value and
`pwm_count` becomes 0. -/
theorem pwm_handler_phase (s : Charger)
    (ht : s.timer_on = true) (hp : s.pwm_count < 100) (hd : s.duty_cycle ≤ 100) :
    (s.pwm_count < 99 ∨ s.duty_cycle = 100 →
      ((pwm_handler s).cur_state = STATES.INTEGRATE ↔
        (pwm_handler s).pwm_count ≤ (pwm_handler s).duty_cycle) ∧
      (¬ (pwm_handler s).pwm_count ≤ (pwm_handler s).duty_cycle →
        (pwm_handler s).cur_state = STATES.MPPT)) ∧
    (s.pwm_count = 99 ∧ s.duty_cycle ≤ 99 →
      (pwm_handler s).cur_state = s.cur_state ∧ (pwm_handler s).pwm_count = 0) := by
  unfold pwm_handler u8
  simp only [ht, if_true]
  split_ifs <;> simp <;> omega

/-- Witness of C10 (amended): at `pwm_count = 50 = duty_cycle` the tick moves
to 51 and selects `MPPT`. -/
theorem pwm_handler_phase_witness :
    (pwm_handler sMid).cur_state = STATES.MPPT ∧
    (pwm_handler sWrapSense).cur_state = sWrapSense.cur_state :=
  ⟨((pwm_handler_phase sMid (by decide) (by decide) (by decide)).1
      (Or.inl (by decide))).2 (by decide),
    ((pwm_handler_phase sWrapSense (by decide) (by decide) (by decide)).2
      ⟨by decide, by decide⟩).1⟩

/-! ## Runs of foreground calls -/

theorem run_append (cfg : Config) (as bs : List Call) (s : Charger) :
    run cfg (as ++ bs) s =
      ((run cfg bs (run cfg as s).1).1, (run cfg as s).2 ++ (run cfg bs (run cfg as s).1).2) := by
  induction as generalizing s with
  | nil => simp [run]
  | cons c cs ih => simp [run, ih, List.append_assoc]

theorem run_snoc (cfg : Config) (cs : List Call) (c : Call) (s : Charger) :
    (run cfg (cs ++ [c]) s).1 = (c.exec cfg (run cfg cs s).1).1 := by
  rw [run_append]; rfl

theorem windowsCompleted_snoc_integrate (cs : List Call) (r : Readings) :
    windowsCompleted (cs ++ [Call.integrate r]) = windowsCompleted cs ∧
    windowOpen (cs ++ [Call.integrate r]) = true := by
  simp [windowsCompleted, windowOpen, List.foldl_append, trackWindows]

theorem windowsCompleted_snoc_mppt (cs : List Call) (r : Readings) :
    windowsCompleted (cs ++ [Call.mppt r]) =
      (if windowOpen cs then windowsCompleted cs + 1 else windowsCompleted cs) ∧
    windowOpen (cs ++ [Call.mppt r]) = false := by
  simp [windowsCompleted, windowOpen, List.foldl_append, trackWindows]

theorem integrate_frame (cfg : Config) (r : Readings) (s : Charger) :
    (integrate cfg r s).1.num_integrals = s.num_integrals ∧
    (integrate cfg r s).1.new_integral = true ∧
    (integrate cfg r s).2 = (if s.new_integral then [] else [Effect.digitalWrite true]) := by
  unfold integrate
  cases s.new_integral <;> simp

theorem mppt_fold_counter (s : Charger) :
    (mppt_fold s).1.num_integrals =
      (if s.new_integral then u8 (s.num_integrals + 1) else s.num_integrals) ∧
    (mppt_fold s).1.new_integral = false ∧
    (mppt_fold s).2 = (if s.new_integral then [Effect.digitalWrite false] else []) := by
  unfold mppt_fold
  cases h : s.new_integral <;> simp [h]

theorem mppt_decision_counter (cfg : Config) (s : Charger) :
    (mppt_decision cfg s).num_integrals =
      (if s.num_integrals = cfg.NUM_INT then 0 else s.num_integrals) ∧
    (mppt_decision cfg s).new_integral = s.new_integral := by
  unfold mppt_decision
  dsimp only
  split_ifs <;> simp

/-- Effect of one `mppt()` call on the window counter, the window flag and
the gate. -/
theorem mppt_counter (cfg : Config) (r : Readings) (s : Charger) :
    (mppt_decides cfg r s ↔
      (if s.new_integral then u8 (s.num_integrals + 1) else s.num_integrals) = cfg.NUM_INT) ∧
    (mppt cfg r s).1.num_integrals =
      (if (if s.new_integral then u8 (s.num_integrals + 1) else s.num_integrals) = cfg.NUM_INT
        then 0
        else (if s.new_integral then u8 (s.num_integrals + 1) else s.num_integrals)) ∧
    (mppt cfg r s).1.new_integral = false ∧
    (mppt cfg r s).2 = (if s.new_integral then [Effect.digitalWrite false] else []) := by
  obtain ⟨-, -, -, c4, c5, -⟩ := mppt_checks_frame cfg r s
  obtain ⟨f1, f2, f3⟩ := mppt_fold_counter (mppt_checks cfg r s)
  obtain ⟨d1, d2⟩ := mppt_decision_counter cfg (mppt_fold (mppt_checks cfg r s)).1
  rw [c4, c5] at f1
  rw [c5] at f3
  refine ⟨?_, ?_, ?_, ?_⟩
  · unfold mppt_decides; rw [f1]
  · rw [mppt_unfold, d1, f1]
  · rw [mppt_unfold, d2, f2]
  · rw [mppt_effects, f3]

/-- Along every run from a record outside a window with a cleared counter,
`num_integrals` is the number of completed windows modulo `NUM_INT` and
`new_integral` tells whether a window is open. -/
theorem run_counter_invariant (cfg : Config) (h1 : 1 ≤ cfg.NUM_INT) (h2 : cfg.NUM_INT ≤ 255)
    (s0 : Charger) (hn : s0.num_integrals = 0) (hw : s0.new_integral = false)
    (cs : List Call) :
    (run cfg cs s0).1.num_integrals = windowsCompleted cs % cfg.NUM_INT ∧
    (run cfg cs s0).1.new_integral = windowOpen cs := by
  induction cs using List.reverseRecOn with
  | nil => simp [run, hn, hw, windowsCompleted, windowOpen]
  | append_singleton cs c ih =>
    obtain ⟨ih1, ih2⟩ := ih
    have hlt : windowsCompleted cs % cfg.NUM_INT < cfg.NUM_INT := Nat.mod_lt _ h1
    rw [run_snoc]
    cases c with
    | integrate r =>
      obtain ⟨i1, i2, -⟩ := integrate_frame cfg r (run cfg cs s0).1
      obtain ⟨w1, w2⟩ := windowsCompleted_snoc_integrate cs r
      simp only [Call.exec]
      rw [i1, i2, w1, w2, ih1]
      exact ⟨rfl, rfl⟩
    | mppt r =>
      obtain ⟨-, m2, m3, -⟩ := mppt_counter cfg r (run cfg cs s0).1
      obtain ⟨w1, w2⟩ := windowsCompleted_snoc_mppt cs r
      simp only [Call.exec]
      rw [m2, m3, w1, w2, ih1, ih2]
      refine ⟨?_, rfl⟩
      cases ho : windowOpen cs
      · simp only [Bool.false_eq_true, if_false]
        rw [if_neg (Nat.ne_of_lt hlt)]
      · simp only [if_true]
        have hu : u8 (windowsCompleted cs % cfg.NUM_INT + 1) =
            windowsCompleted cs % cfg.NUM_INT + 1 := by
          unfold u8; omega
        have hmod : (windowsCompleted cs + 1) % cfg.NUM_INT =
            (windowsCompleted cs % cfg.NUM_INT + 1) % cfg.NUM_INT :=
          (Nat.mod_add_mod _ _ _).symm
        rw [hu, hmod]
        by_cases he : windowsCompleted cs % cfg.NUM_INT + 1 = cfg.NUM_INT
        · rw [if_pos he, he, Nat.mod_self]
        · have hlt2 : windowsCompleted cs % cfg.NUM_INT + 1 < cfg.NUM_INT := by omega
          rw [if_neg he, Nat.mod_eq_of_lt hlt2]

/-- C7: for `1 ≤ NUM_INT ≤ 255`, along every sequence of `integrate()` and
`mppt()` calls that starts outside a window with `num_integrals = 0` (as
`init_charger()` leaves it): after every `mppt()` call
`num_integrals < NUM_INT`; an `mppt()` call performs the decision exactly
when it closes an open window and that window is the `(k * NUM_INT)`-th
completed one for some `k ≥ 1`; and an `mppt()` call that directly follows
another `mppt()` call never decides. -/
theorem mppt_decision_cadence (cfg : Config) (h1 : 1 ≤ cfg.NUM_INT) (h2 : cfg.NUM_INT ≤ 255)
    (s0 : Charger) (hn : s0.num_integrals = 0) (hw : s0.new_integral = false)
    (pre : List Call) (r : Readings) :
    (mppt cfg r (run cfg pre s0).1).1.num_integrals < cfg.NUM_INT ∧
    (mppt_decides cfg r (run cfg pre s0).1 ↔
      windowOpen pre = true ∧
        ∃ k, 1 ≤ k ∧ windowsCompleted (pre ++ [Call.mppt r]) = k * cfg.NUM_INT) ∧
    (∀ r2 : Readings, ¬ mppt_decides cfg r2 (run cfg (pre ++ [Call.mppt r]) s0).1) := by
  obtain ⟨i1, i2⟩ := run_counter_invariant cfg h1 h2 s0 hn hw pre
  obtain ⟨j1, j2⟩ := run_counter_invariant cfg h1 h2 s0 hn hw (pre ++ [Call.mppt r])
  obtain ⟨w1, w2⟩ := windowsCompleted_snoc_mppt pre r
  have hlt : windowsCompleted pre % cfg.NUM_INT < cfg.NUM_INT := Nat.mod_lt _ h1
  have hlt2 : windowsCompleted (pre ++ [Call.mppt r]) % cfg.NUM_INT < cfg.NUM_INT :=
    Nat.mod_lt _ h1
  refine ⟨?_, ?_, ?_⟩
  · have hs : (mppt cfg r (run cfg pre s0).1).1 = (run cfg (pre ++ [Call.mppt r]) s0).1 := by
      rw [run_snoc]; rfl
    rw [hs, j1]; exact hlt2
  · rw [(mppt_counter cfg r (run cfg pre s0).1).1, i1, i2, w1]
    cases ho : windowOpen pre
    · simp only [Bool.false_eq_true, if_false, false_and, iff_false]
      exact Nat.ne_of_lt hlt
    · simp only [if_true, true_and]
      have hu : u8 (windowsCompleted pre % cfg.NUM_INT + 1) =
          windowsCompleted pre % cfg.NUM_INT + 1 := by
        unfold u8; omega
      rw [hu]
      constructor
      · intro he
        refine ⟨windowsCompleted pre / cfg.NUM_INT + 1, Nat.le_add_left 1 _, ?_⟩
        have hdm := Nat.div_add_mod (windowsCompleted pre) cfg.NUM_INT
        rw [Nat.add_mul, Nat.one_mul, Nat.mul_comm]
        omega
      · rintro ⟨k, -, hk⟩
        have hz : (windowsCompleted pre + 1) % cfg.NUM_INT = 0 := by
          rw [hk]; exact Nat.mul_mod_left k cfg.NUM_INT
        rw [← Nat.mod_add_mod] at hz
        by_contra hne
        have hlt3 : windowsCompleted pre % cfg.NUM_INT + 1 < cfg.NUM_INT := by omega
        rw [Nat.mod_eq_of_lt hlt3] at hz
        omega
  · intro r2
    rw [(mppt_counter cfg r2 (run cfg (pre ++ [Call.mppt r]) s0).1).1, j1, j2, w2]
    simp only [Bool.false_eq_true, if_false]
    exact Nat.ne_of_lt hlt2

/-- Witness of C7: with `NUM_INT = 2`, after `init_charger()`, the `mppt()`
call that closes the second window decides, and `num_integrals` is below 2
after it. -/
theorem mppt_decision_cadence_witness :
    sInit.num_integrals = 0 ∧ sInit.new_integral = false ∧
    windowsCompleted (callsA ++ [Call.mppt rA]) = 2 ∧
    mppt_decides cfg2 rA (run cfg2 callsA sInit).1 ∧
    (mppt cfg2 rA (run cfg2 callsA sInit).1).1.num_integrals < cfg2.NUM_INT :=
  ⟨by with_unfolding_all decide, by with_unfolding_all decide, by decide,
    (mppt_decision_cadence cfg2 (by decide) (by decide) sInit
      (by with_unfolding_all decide) (by with_unfolding_all decide) callsA rA).2.1.mpr
        ⟨by decide, 1, by decide, by decide⟩,
    (mppt_decision_cadence cfg2 (by decide) (by decide) sInit
      (by with_unfolding_all decide) (by with_unfolding_all decide) callsA rA).1⟩

/-! ## Gate commands of one window -/

theorem run_integrate_open (cfg : Config) (rs : List Readings) (s : Charger)
    (h : s.new_integral = true) :
    (run cfg (rs.map Call.integrate) s).2 = [] ∧
    (run cfg (rs.map Call.integrate) s).1.new_integral = true := by
  induction rs generalizing s with
  | nil => exact ⟨rfl, h⟩
  | cons r rs ih =>
    obtain ⟨-, i2, i3⟩ := integrate_frame cfg r s
    obtain ⟨k1, k2⟩ := ih (integrate cfg r s).1 i2
    simp only [List.map_cons, run, Call.exec]
    rw [k1, k2, i3, h]
    exact ⟨rfl, rfl⟩

theorem run_mppt_closed (cfg : Config) (rs : List Readings) (s : Charger)
    (h : s.new_integral = false) :
    (run cfg (rs.map Call.mppt) s).2 = [] := by
  induction rs generalizing s with
  | nil => rfl
  | cons r rs ih =>
    obtain ⟨-, -, m3, m4⟩ := mppt_counter cfg r s
    have k := ih (mppt cfg r s).1 m3
    simp only [List.map_cons, run, Call.exec]
    rw [k, m4, h]
    rfl

theorem run_integrate_closed (cfg : Config) (r : Readings) (rs : List Readings) (s : Charger)
    (h : s.new_integral = false) :
    (run cfg ((r :: rs).map Call.integrate) s).2 = [Effect.digitalWrite true] ∧
    (run cfg ((r :: rs).map Call.integrate) s).1.new_integral = true := by
  obtain ⟨-, i2, i3⟩ := integrate_frame cfg r s
  obtain ⟨a1, a2⟩ := run_integrate_open cfg rs (integrate cfg r s).1 i2
  simp only [List.map_cons, run, Call.exec]
  rw [a1, a2, i3, h]
  exact ⟨rfl, rfl⟩

theorem run_mppt_open (cfg : Config) (r : Readings) (rs : List Readings) (s : Charger)
    (h : s.new_integral = true) :
    (run cfg ((r :: rs).map Call.mppt) s).2 = [Effect.digitalWrite false] := by
  obtain ⟨-, -, m3, m4⟩ := mppt_counter cfg r s
  have b := run_mppt_closed cfg rs (mppt cfg r s).1 m3
  simp only [List.map_cons, run, Call.exec]
  rw [b, m4, h]
  rfl

/-- C8: a window that starts with `new_integral = false` and consists of
`n ≥ 1` calls of `integrate()` followed by `m ≥ 1` calls of `mppt()` sends
exactly two commands to the hardware: `digitalWrite(SW1_PWM, HIGH)`, then
`digitalWrite(SW1_PWM, LOW)`, whatever `n`, `m` and the readings are. -/
theorem gate_once_per_window (cfg : Config) (s : Charger) (hw : s.new_integral = false)
    (is ms : List Readings) (hi : is ≠ []) (hm : ms ≠ []) :
    (run cfg (is.map Call.integrate ++ ms.map Call.mppt) s).2 =
      [Effect.digitalWrite true, Effect.digitalWrite false] := by
  obtain ⟨r, rs, rfl⟩ := List.exists_cons_of_ne_nil hi
  obtain ⟨q, qs, rfl⟩ := List.exists_cons_of_ne_nil hm
  obtain ⟨a1, a2⟩ := run_integrate_closed cfg r rs s hw
  have b := run_mppt_open cfg q qs _ a2
  rw [run_append, a1, b]
  rfl

/-- Witness of C8: three `integrate()` calls and two `mppt()` calls from the
record left by `init_charger()`. -/
theorem gate_once_per_window_witness :
    sInit.new_integral = false ∧
    (run cfg2 ([rI, rI, rI].map Call.integrate ++ [rA, rB].map Call.mppt) sInit).2 =
      [Effect.digitalWrite true, Effect.digitalWrite false] :=
  ⟨by with_unfolding_all decide,
    gate_once_per_window cfg2 sInit (by with_unfolding_all decide) [rI, rI, rI] [rA, rB]
      (by decide) (by decide)⟩

/-! ## The shutdown handler -/

/-- Commands of `done_charging()`: the gate is driven low, then the sleep and
the reset follow on every path. -/
theorem done_charging_effects (cfg : Config) (r : Readings) (s : Charger) :
    (done_charging cfg r s).2 =
      [Effect.digitalWrite false, Effect.delay (cfg.SLEEP_TIME * 1000), Effect.resetFunc] :=
  rfl

/-- C11 (the code at the failing input): with a battery at 10 V below
`VCHARGE = 14` and a panel at 20 V, so that `v_solar * D_MAX / 100 = 18` is
at least `v_battery`, `done_charging()` sets `cur_state = INIT_CHG` and still
calls `delay(SLEEP_TIME * 1000)` and `resetFunc()`. -/
theorem done_charging_recovery_still_resets :
    rA.VBAT_MEAS < cfgA.VCHARGE ∧
    rA.VSOL_MEAS * (cfgA.D_MAX : Rat) / 100 ≥ rA.VBAT_MEAS ∧
    (done_charging cfgA rA sDone).1.cur_state = STATES.INIT_CHG ∧
    (done_charging cfgA rA sDone).2 =
      [Effect.digitalWrite false, Effect.delay 60000, Effect.resetFunc] :=
  ⟨by with_unfolding_all decide, by with_unfolding_all decide,
    by with_unfolding_all decide, rfl⟩

/-! ## Initialisation -/

/-- The duty cycle `init_charger()` stores: the conversion to `char` of 100
times the ratio of the two samples, with no comparison against `D_MIN` or
`D_MAX`. -/
theorem init_charger_duty_cycle (cfg : Config) (r : Readings) (s : Charger) :
    (init_charger cfg r s).duty_cycle =
      cfg.arith.toChar (cfg.arith.mul 100 (cfg.arith.div r.VBAT_MEAS r.VSOL_MEAS)) := by
  unfold init_charger check_battery check_solar
  dsimp only
  split <;> rfl

/-- C12 (the code at the failing inputs): with `D_MIN = 10`, `D_MAX = 90`, a
battery at 1 V under a panel at 20 V gives `duty_cycle = 5`, below `D_MIN`,
and a battery at 13 V under a panel at 14 V gives `duty_cycle = 92`, above
`D_MAX`. -/
theorem init_charger_duty_cycle_not_clamped :
    rLow.VSOL_MEAS > 0 ∧ rLow.VBAT_MEAS ≥ 0 ∧
    (init_charger cfgA rLow sA).duty_cycle = 5 ∧
    ¬ cfgA.D_MIN ≤ (init_charger cfgA rLow sA).duty_cycle ∧
    rHigh.VSOL_MEAS > 0 ∧ rHigh.VBAT_MEAS ≥ 0 ∧
    (init_charger cfgA rHigh sA).duty_cycle = 92 ∧
    ¬ (init_charger cfgA rHigh sA).duty_cycle ≤ cfgA.D_MAX := by
  with_unfolding_all decide

/-- C13 (counterexample): `init_charger()` does not write `vl_cur`; two prior
records that differ only there give different records for the same samples. -/
theorem init_charger_keeps_vl_cur :
    (init_charger cfgA rA sA).vl_cur = 0 ∧ (init_charger cfgA rA sOther).vl_cur = 1 ∧
    init_charger cfgA rA sA ≠ init_charger cfgA rA sOther := by
  with_unfolding_all decide

/-- C13 (amended): for every prior record and every sample, `init_charger()`
returns with `pwm_count = 0`, `num_integrals = 0`, `integral = 0`,
`integral_avg = 0`, `new_integral = false`, `duty_inc = true`,
`p_prev = p_cur = 0`, `t_prev = t_cur`, `cur_state = INTEGRATE` and
`timer_on = true`, also when the battery sample is at or above `VCHARGE`;
`vl_cur` keeps its prior value, and two prior records with the same `vl_cur`
give the same record. -/
theorem init_charger_rebuilds (cfg : Config) (r : Readings) (s1 s2 : Charger)
    (h : s1.vl_cur = s2.vl_cur) :
    (init_charger cfg r s1).pwm_count = 0 ∧
    (init_charger cfg r s1).num_integrals = 0 ∧
    (init_charger cfg r s1).integral = 0 ∧
    (init_charger cfg r s1).integral_avg = 0 ∧
    (init_charger cfg r s1).new_integral = false ∧
    (init_charger cfg r s1).duty_inc = true ∧
    (init_charger cfg r s1).p_prev = 0 ∧
    (init_charger cfg r s1).p_cur = 0 ∧
    (init_charger cfg r s1).t_prev = (init_charger cfg r s1).t_cur ∧
    (init_charger cfg r s1).cur_state = STATES.INTEGRATE ∧
    (init_charger cfg r s1).timer_on = true ∧
    (init_charger cfg r s1).vl_cur = s1.vl_cur ∧
    init_charger cfg r s1 = init_charger cfg r s2 := by
  unfold init_charger check_battery check_solar
  dsimp only
  split <;> simp [h]

/-- Witness of C13 (amended): a battery sample at `VCHARGE`, where
`check_battery()` selects `DONE_CHG` on the way; the record returned is in
`INTEGRATE` with the timer on, from two different prior records. -/
theorem init_charger_rebuilds_witness :
    rFull.VBAT_MEAS ≥ cfgA.VCHARGE ∧ sA ≠ sDone ∧ sA.vl_cur = sDone.vl_cur ∧
    (init_charger cfgA rFull sA).cur_state = STATES.INTEGRATE ∧
    (init_charger cfgA rFull sA).timer_on = true ∧
    init_charger cfgA rFull sA = init_charger cfgA rFull sDone :=
  ⟨by with_unfolding_all decide, by with_unfolding_all decide, by with_unfolding_all decide,
    (init_charger_rebuilds cfgA rFull sA sDone (by with_unfolding_all decide)).2.2.2.2.2.2.2.2.2.1,
    (init_charger_rebuilds cfgA rFull sA sDone (by with_unfolding_all decide)).2.2.2.2.2.2.2.2.2.2.1,
    (init_charger_rebuilds cfgA rFull sA sDone (by with_unfolding_all decide)).2.2.2.2.2.2.2.2.2.2.2.2⟩

/-! ## The fold of a window into the running average -/

/-- What the decision block leaves alone. -/
theorem mppt_decision_frame_rest (cfg : Config) (s : Charger) :
    (mppt_decision cfg s).integral = s.integral ∧
    (mppt_decision cfg s).integral_avg = s.integral_avg ∧
    (mppt_decision cfg s).pwm_count = s.pwm_count ∧
    (mppt_decision cfg s).v_battery = s.v_battery ∧
    (mppt_decision cfg s).v_solar = s.v_solar ∧
    (mppt_decision cfg s).vl_cur = s.vl_cur ∧
    (mppt_decision cfg s).vl_prev = s.vl_prev ∧
    (mppt_decision cfg s).t_cur = s.t_cur ∧
    (mppt_decision cfg s).t_prev = s.t_prev := by
  unfold mppt_decision
  dsimp only
  split_ifs <;> simp

/-- The running average and the integral through one call of `mppt()`. -/
theorem mppt_fold_values (cfg : Config) (r : Readings) (s : Charger) :
    (mppt cfg r s).1.integral_avg =
      (if s.new_integral then i32 (s.integral_avg + s.integral) >>> 1 else s.integral_avg) ∧
    (mppt cfg r s).1.integral = (if s.new_integral then 0 else s.integral) := by
  obtain ⟨-, -, -, -, c5, c6, c7, -⟩ := mppt_checks_frame cfg r s
  obtain ⟨d1, d2, -⟩ := mppt_decision_frame_rest cfg (mppt_fold (mppt_checks cfg r s)).1
  rw [mppt_unfold, d1, d2]
  unfold mppt_fold
  rw [c5]
  cases s.new_integral <;> simp [c6, c7]

/-- The shift `>>= 1` of a `long int` is the quotient by 2 rounded toward
minus infinity. -/
theorem shiftRight_one_eq (x : Int) : x >>> (1 : Int) = x / 2 := by
  cases x with
  | ofNat m =>
    have h := Int.shiftRight_coe_nat m 1
    simp only [Nat.cast_one] at h
    rw [Int.ofNat_eq_coe, h, Nat.shiftRight_eq_div_pow]
    norm_num
  | negSucc m =>
    have h := Int.shiftRight_negSucc m 1
    simp only [Nat.cast_one] at h
    rw [h, Nat.shiftRight_eq_div_pow, Int.negSucc_eq, Int.negSucc_eq]
    norm_num
    omega

theorem i32_of_representable (x : Int) (hlo : -2 ^ 31 ≤ x) (hhi : x < 2 ^ 31) : i32 x = x := by
  unfold i32
  omega

/-- C14 (counterexample): an odd negative sum.  With `integral_avg = 0` and
`integral = -3` the fold leaves `integral_avg = -2`, while division
truncating toward zero gives `-1`. -/
theorem mppt_fold_rounds_down :
    sNeg.new_integral = true ∧ sNeg.integral_avg + sNeg.integral = -3 ∧
    (mppt cfgA rA sNeg).1.integral_avg = -2 ∧
    Int.tdiv (sNeg.integral_avg + sNeg.integral) 2 = -1 ∧
    (mppt cfgA rA sNeg).1.integral_avg ≠ Int.tdiv (sNeg.integral_avg + sNeg.integral) 2 := by
  with_unfolding_all decide

/-- C14 (amended): for every call of `mppt()` entered with `new_integral`
set and with `integral_avg + integral` representable in 32 signed bits,
`integral_avg` afterwards is `(integral_avg + integral) / 2` rounded toward
minus infinity (the shift `>>= 1`); this is the quotient truncated toward
zero whenever the sum is non-negative or even. -/
theorem mppt_fold_halves (cfg : Config) (r : Readings) (s : Charger)
    (hn : s.new_integral = true)
    (hlo : -2 ^ 31 ≤ s.integral_avg + s.integral)
    (hhi : s.integral_avg + s.integral < 2 ^ 31) :
    (mppt cfg r s).1.integral_avg = Int.fdiv (s.integral_avg + s.integral) 2 ∧
    (0 ≤ s.integral_avg + s.integral ∨ (s.integral_avg + s.integral) % 2 = 0 →
      (mppt cfg r s).1.integral_avg = Int.tdiv (s.integral_avg + s.integral) 2) := by
  have hv := (mppt_fold_values cfg r s).1
  rw [hn, if_pos rfl, i32_of_representable _ hlo hhi, shiftRight_one_eq] at hv
  have hf : Int.fdiv (s.integral_avg + s.integral) 2 = (s.integral_avg + s.integral) / 2 :=
    Int.fdiv_eq_ediv _ (by norm_num)
  refine ⟨by rw [hv, hf], ?_⟩
  intro h
  rw [hv]
  rcases h with h | h
  · exact (Int.tdiv_eq_ediv h (by norm_num)).symm
  · have hd : (2 : Int) ∣ s.integral_avg + s.integral := Int.dvd_of_emod_eq_zero h
    obtain ⟨k, hk⟩ := hd
    rw [hk, Int.mul_ediv_cancel_left _ (by norm_num), Int.mul_tdiv_cancel_left _ (by norm_num)]

/-- Witness of C14 (amended): the sum `-3` folds to `-2`, the sum 20 to 10. -/
theorem mppt_fold_halves_witness :
    (mppt cfgA rA sNeg).1.integral_avg = -2 ∧ (mppt cfgA rA sA).1.integral_avg = 10 :=
  ⟨((mppt_fold_halves cfgA rA sNeg (by decide) (by decide) (by decide)).1).trans (by decide),
    ((mppt_fold_halves cfgA rA sA (by decide) (by decide) (by decide)).2
      (Or.inl (by decide))).trans (by decide)⟩

/-- C15: every call of `mppt()` entered with `new_integral` set returns with
`integral = 0` and `new_integral = false`; every call entered with
`new_integral` cleared leaves `integral` and `integral_avg` unchanged. -/
theorem mppt_zeroes_integral (cfg : Config) (r : Readings) (s : Charger) :
    (s.new_integral = true →
      (mppt cfg r s).1.integral = 0 ∧ (mppt cfg r s).1.new_integral = false) ∧
    (s.new_integral = false →
      (mppt cfg r s).1.integral = s.integral ∧
      (mppt cfg r s).1.integral_avg = s.integral_avg) := by
  obtain ⟨v1, v2⟩ := mppt_fold_values cfg r s
  obtain ⟨-, -, m3, -⟩ := mppt_counter cfg r s
  constructor
  · intro h
    rw [v2, h]
    exact ⟨rfl, m3⟩
  · intro h
    rw [v1, v2, h]
    exact ⟨rfl, rfl⟩

/-- Witness of C15: the record `sA` with an open window, and `sIdle`
without one. -/
theorem mppt_zeroes_integral_witness :
    sA.integral = 20 ∧ (mppt cfgA rA sA).1.integral = 0 ∧
    (mppt cfgA rA sA).1.new_integral = false ∧
    (mppt cfgA rA sIdle).1.integral = sIdle.integral ∧
    (mppt cfgA rA sIdle).1.integral_avg = sIdle.integral_avg :=
  ⟨by decide, ((mppt_zeroes_integral cfgA rA sA).1 (by decide)).1,
    ((mppt_zeroes_integral cfgA rA sA).1 (by decide)).2,
    ((mppt_zeroes_integral cfgA rA sIdle).2 (by decide)).1,
    ((mppt_zeroes_integral cfgA rA sIdle).2 (by decide)).2⟩

/-! ## The integrator -/

/-- The trapezoid with the samples ordered: the computation of `integrate()`
on the smaller and the larger of the two samples, in the target arithmetic. -/
theorem trapezoid_eq (cfg : Config) (s : Charger) :
    trapezoid cfg s =
      cfg.arith.mul
        (cfg.arith.add (min s.vl_prev s.vl_cur)
          (cfg.arith.div (cfg.arith.sub (max s.vl_prev s.vl_cur) (min s.vl_prev s.vl_cur)) 2))
        (cfg.arith.ofULong (elapsed s)) := by
  unfold trapezoid elapsed
  split_ifs with h
  · have h2 : s.vl_prev ≤ s.vl_cur := h
    rw [min_eq_left h2, max_eq_right h2]
  · have h2 : s.vl_cur ≤ s.vl_prev := le_of_lt (not_le.mp h)
    rw [min_eq_right h2, max_eq_left h2]

/-- The trapezoid in exact arithmetic. -/
theorem trapezoid_exact (cfg : Config) (s : Charger) (he : cfg.arith = exactArith) :
    trapezoid cfg s = (elapsed s : Rat) * (s.vl_prev + s.vl_cur) / 2 := by
  rw [trapezoid_eq, he]
  show (min s.vl_prev s.vl_cur + (max s.vl_prev s.vl_cur - min s.vl_prev s.vl_cur) / 2) *
    ((elapsed s : Nat) : Rat) = (elapsed s : Rat) * (s.vl_prev + s.vl_cur) / 2
  rcases le_total s.vl_prev s.vl_cur with h | h
  · rw [min_eq_left h, max_eq_right h]; ring
  · rw [min_eq_right h, max_eq_left h]; ring

/-- C16: in every call of `integrate()`, for every pair of samples and every
elapsed time, the term added to `integral` is
`(v_low + (v_high - v_low) / 2) * dt`, computed in the target arithmetic,
with `v_low` and `v_high` the smaller and the larger of `vl_prev` and the new
sample and `dt = t_cur - t_prev` in `unsigned long`; the term is unchanged
when the two samples are exchanged, in every arithmetic; in exact arithmetic
it equals `dt * (vl_prev + vl_cur) / 2` and is negative when both samples are
negative and `dt > 0`; on return `t_prev = t_cur` and `vl_prev = vl_cur` hold
the new sample.  The value stored in `integral` is the conversion to
`long int` of the sum, in `double`, of the old `integral` and the term. -/
theorem integrate_trapezoid (cfg : Config) (r : Readings) (s : Charger) :
    (integrate cfg r s).1.integral =
      cfg.arith.toLong
        (cfg.arith.add (cfg.arith.ofLong s.integral) (trapezoid cfg (integrate_sampled r s))) ∧
    trapezoid cfg (integrate_sampled r s) =
      cfg.arith.mul
        (cfg.arith.add (min s.vl_prev r.VL_MEAS)
          (cfg.arith.div (cfg.arith.sub (max s.vl_prev r.VL_MEAS) (min s.vl_prev r.VL_MEAS)) 2))
        (cfg.arith.ofULong (elapsed (integrate_sampled r s))) ∧
    elapsed (integrate_sampled r s) = u32 (u32 r.micros + 2 ^ 32 - s.t_prev) ∧
    (s.t_prev ≤ r.micros → r.micros < 2 ^ 32 →
      elapsed (integrate_sampled r s) = r.micros - s.t_prev) ∧
    trapezoid cfg (swapSamples (integrate_sampled r s)) =
      trapezoid cfg (integrate_sampled r s) ∧
    (cfg.arith = exactArith →
      trapezoid cfg (integrate_sampled r s) =
        (elapsed (integrate_sampled r s) : Rat) * (s.vl_prev + r.VL_MEAS) / 2) ∧
    (cfg.arith = exactArith →
      s.vl_prev < 0 → r.VL_MEAS < 0 → 0 < elapsed (integrate_sampled r s) →
      trapezoid cfg (integrate_sampled r s) < 0) ∧
    (integrate cfg r s).1.t_prev = (integrate cfg r s).1.t_cur ∧
    (integrate cfg r s).1.t_cur = u32 r.micros ∧
    (integrate cfg r s).1.vl_prev = (integrate cfg r s).1.vl_cur ∧
    (integrate cfg r s).1.vl_cur = r.VL_MEAS := by
  refine ⟨rfl, trapezoid_eq cfg _, rfl, ?_, ?_, ?_, ?_, rfl, rfl, rfl, rfl⟩
  · intro h1 h2
    show u32 (u32 r.micros + 2 ^ 32 - s.t_prev) = r.micros - s.t_prev
    unfold u32
    omega
  · rw [trapezoid_eq, trapezoid_eq]
    show cfg.arith.mul
        (cfg.arith.add (min r.VL_MEAS s.vl_prev)
          (cfg.arith.div (cfg.arith.sub (max r.VL_MEAS s.vl_prev) (min r.VL_MEAS s.vl_prev)) 2))
        (cfg.arith.ofULong (elapsed (integrate_sampled r s))) =
      cfg.arith.mul
        (cfg.arith.add (min s.vl_prev r.VL_MEAS)
          (cfg.arith.div (cfg.arith.sub (max s.vl_prev r.VL_MEAS) (min s.vl_prev r.VL_MEAS)) 2))
        (cfg.arith.ofULong (elapsed (integrate_sampled r s)))
    rw [min_comm r.VL_MEAS s.vl_prev, max_comm r.VL_MEAS s.vl_prev]
  · intro he
    exact trapezoid_exact cfg _ he
  · intro he h1 h2 h3
    rw [trapezoid_exact cfg _ he]
    have hd : (0 : Rat) < (elapsed (integrate_sampled r s) : Rat) := by exact_mod_cast h3
    have hs : s.vl_prev + r.VL_MEAS < 0 := by linarith
    have hm : (elapsed (integrate_sampled r s) : Rat) * (s.vl_prev + r.VL_MEAS) < 0 :=
      mul_neg_of_pos_of_neg hd hs
    show (elapsed (integrate_sampled r s) : Rat) * (s.vl_prev + r.VL_MEAS) / 2 < 0
    linarith

/-- Witness of C16: in exact arithmetic, samples `-2` and `-4` taken 10
microseconds apart give the term `-30`, and `integral` goes from 20 to `-10`. -/
theorem integrate_trapezoid_witness :
    cfgA.arith = exactArith ∧
    sNegSamples.vl_prev = -2 ∧ sNegSamples.t_prev = 5 ∧
    trapezoid cfgA (integrate_sampled { rI with VL_MEAS := -4, micros := 15 } sNegSamples) = -30 ∧
    (integrate cfgA { rI with VL_MEAS := -4, micros := 15 } sNegSamples).1.integral = -10 ∧
    trapezoid cfgA (integrate_sampled { rI with VL_MEAS := -4, micros := 15 } sNegSamples) < 0 :=
  ⟨rfl, by with_unfolding_all decide, by with_unfolding_all decide,
    by with_unfolding_all decide, by with_unfolding_all decide,
    (integrate_trapezoid cfgA { rI with VL_MEAS := -4, micros := 15 } sNegSamples).2.2.2.2.2.2.1
      rfl (by with_unfolding_all decide) (by with_unfolding_all decide)
      (by with_unfolding_all decide)⟩

/-- C17 (the code at the failing input): a second window of two samples,
2 V at 1000 and at 1010 microseconds, entered with `integral = 0` and
`new_integral = false`.  The trapezoidal sum over these two samples is 20;
`integrate()` returns 2000 when the previous window left `t_prev = 10`,
`vl_prev = 2`, and 40 when it left `t_prev = 990`: the first call adds the
trapezoid that reaches back to the sample left behind. -/
theorem integrate_window_includes_gap :
    sGap.integral = 0 ∧ sGap.new_integral = false ∧
    sGap.t_prev = 10 ∧ sGap.vl_prev = 2 ∧
    sGapLate.integral = 0 ∧ sGapLate.new_integral = false ∧
    sGapLate.t_prev = 990 ∧ sGapLate.vl_prev = 2 ∧
    spec_window_integral [rW1, rW2] = 20 ∧
    (run cfg2 [Call.integrate rW1, Call.integrate rW2] sGap).1.integral = 2000 ∧
    (run cfg2 [Call.integrate rW1, Call.integrate rW2] sGapLate).1.integral = 40 := by
  with_unfolding_all decide

/-! ## Which operation writes which field -/

theorem integrate_frame_scheduler (cfg : Config) (r : Readings) (s : Charger) :
    (integrate cfg r s).1.cur_state = s.cur_state ∧
    (integrate cfg r s).1.pwm_count = s.pwm_count ∧
    (integrate cfg r s).1.timer_on = s.timer_on ∧
    (integrate cfg r s).1.duty_cycle = s.duty_cycle :=
  ⟨rfl, rfl, rfl, rfl⟩

theorem check_battery_state (cfg : Config) (r : Readings) (s : Charger) :
    (check_battery cfg r s).pwm_count = s.pwm_count ∧
    ((check_battery cfg r s).cur_state = s.cur_state ∧
        (check_battery cfg r s).timer_on = s.timer_on ∨
      (check_battery cfg r s).cur_state = STATES.DONE_CHG ∧
        (check_battery cfg r s).timer_on = false) := by
  unfold check_battery
  dsimp only
  split <;> simp

theorem mppt_state (cfg : Config) (r : Readings) (s : Charger) :
    (mppt cfg r s).1.pwm_count = s.pwm_count ∧
    ((mppt cfg r s).1.cur_state = s.cur_state ∧ (mppt cfg r s).1.timer_on = s.timer_on ∨
      (mppt cfg r s).1.cur_state = STATES.DONE_CHG ∧ (mppt cfg r s).1.timer_on = false) := by
  obtain ⟨m1, m2⟩ := mppt_state_of_checks cfg r s
  obtain ⟨-, -, d3, -⟩ := mppt_decision_frame_rest cfg (mppt_fold (mppt_checks cfg r s)).1
  obtain ⟨b1, b2⟩ := check_battery_state cfg r s
  rw [m1, m2]
  constructor
  · rw [mppt_unfold, d3]
    unfold mppt_fold mppt_checks check_solar
    dsimp only
    split_ifs <;> simp [b1]
  · unfold mppt_checks check_solar
    dsimp only
    split_ifs
    · right; exact ⟨rfl, rfl⟩
    · exact b2

theorem done_charging_state (cfg : Config) (r : Readings) (s : Charger) :
    (done_charging cfg r s).1.pwm_count = s.pwm_count ∧
    (done_charging cfg r s).1.timer_on = false ∧
    ((done_charging cfg r s).1.cur_state = s.cur_state ∨
      (done_charging cfg r s).1.cur_state = STATES.DONE_CHG ∨
      (done_charging cfg r s).1.cur_state = STATES.INIT_CHG) := by
  unfold done_charging check_solar check_battery
  dsimp only
  split_ifs <;> simp

theorem pwm_handler_eq (s : Charger) :
    pwm_handler s =
      { s with pwm_count := (pwm_handler s).pwm_count, cur_state := (pwm_handler s).cur_state } := by
  unfold pwm_handler
  dsimp only
  split_ifs <;> rfl

/-- C18: `pwm_handler()` changes no field other than `pwm_count` and
`cur_state`, and changes nothing at all when `timer_on` is cleared. -/
theorem pwm_handler_frame (s : Charger) :
    (pwm_handler s).duty_cycle = s.duty_cycle ∧
    (pwm_handler s).timer_on = s.timer_on ∧
    (pwm_handler s).new_integral = s.new_integral ∧
    (pwm_handler s).duty_inc = s.duty_inc ∧
    (pwm_handler s).num_integrals = s.num_integrals ∧
    (pwm_handler s).integral = s.integral ∧
    (pwm_handler s).integral_avg = s.integral_avg ∧
    (pwm_handler s).v_solar = s.v_solar ∧
    (pwm_handler s).v_battery = s.v_battery ∧
    (pwm_handler s).vl_cur = s.vl_cur ∧
    (pwm_handler s).vl_prev = s.vl_prev ∧
    (pwm_handler s).p_cur = s.p_cur ∧
    (pwm_handler s).p_prev = s.p_prev ∧
    (pwm_handler s).t_cur = s.t_cur ∧
    (pwm_handler s).t_prev = s.t_prev ∧
    (s.timer_on = false → pwm_handler s = s) := by
  have h := pwm_handler_eq s
  refine ⟨?_, ?_, ?_, ?_, ?_, ?_, ?_, ?_, ?_, ?_, ?_, ?_, ?_, ?_, ?_, ?_⟩
  all_goals first
    | (rw [h]; done)
    | (intro ht; unfold pwm_handler; rw [ht]; rfl)

/-- Witness of C18: a tick on a record with the timer off returns the record;
a tick on the last charge tick changes `cur_state` and `pwm_count` only. -/
theorem pwm_handler_frame_witness :
    sDone.timer_on = false ∧ pwm_handler sDone = sDone ∧
    (pwm_handler sLastCharge).duty_cycle = sLastCharge.duty_cycle :=
  ⟨by decide, (pwm_handler_frame sDone).2.2.2.2.2.2.2.2.2.2.2.2.2.2.2 (by decide),
    (pwm_handler_frame sLastCharge).1⟩

/-- C19 (counterexample): `cur_state` and `pwm_count` are written from both
contexts.  A tick of `pwm_handler()` changes both on the last charge tick;
`init_charger()` changes both, and `check_battery()` changes `cur_state`. -/
theorem cur_state_written_by_both_contexts :
    (pwm_handler sLastCharge).cur_state ≠ sLastCharge.cur_state ∧
    (pwm_handler sLastCharge).pwm_count ≠ sLastCharge.pwm_count ∧
    (init_charger cfgA rA sA).cur_state ≠ sA.cur_state ∧
    (init_charger cfgA rA sA).pwm_count ≠ sA.pwm_count ∧
    (check_battery cfgA rFull sA).cur_state ≠ sA.cur_state ∧
    (mppt cfgA rFull sA).1.cur_state ≠ sA.cur_state ∧
    (done_charging cfgA rA sDone).1.cur_state ≠ sDone.cur_state := by
  with_unfolding_all decide

/-- C19 (amended): `pwm_handler()` changes only `pwm_count` and `cur_state`,
so every other field is written by the foreground alone.  Of the foreground
operations, `integrate()` changes neither of the two; `check_battery()`,
`mppt()` and `done_charging()` leave `pwm_count` unchanged; `check_battery()`
and `mppt()` change `cur_state` only to `DONE_CHG`, together with
`timer_on = false`; `done_charging()` returns with `timer_on = false` and
changes `cur_state` only to `DONE_CHG` or `INIT_CHG`; `init_charger()` writes
both, `pwm_count = 0` and `cur_state = INTEGRATE`. -/
theorem writers_of_scheduler_fields (cfg : Config) (r : Readings) (s : Charger) :
    pwm_handler s =
      { s with pwm_count := (pwm_handler s).pwm_count, cur_state := (pwm_handler s).cur_state } ∧
    ((integrate cfg r s).1.cur_state = s.cur_state ∧ (integrate cfg r s).1.pwm_count = s.pwm_count) ∧
    ((check_battery cfg r s).pwm_count = s.pwm_count ∧
      ((check_battery cfg r s).cur_state = s.cur_state ∧
          (check_battery cfg r s).timer_on = s.timer_on ∨
        (check_battery cfg r s).cur_state = STATES.DONE_CHG ∧
          (check_battery cfg r s).timer_on = false)) ∧
    ((mppt cfg r s).1.pwm_count = s.pwm_count ∧
      ((mppt cfg r s).1.cur_state = s.cur_state ∧ (mppt cfg r s).1.timer_on = s.timer_on ∨
        (mppt cfg r s).1.cur_state = STATES.DONE_CHG ∧ (mppt cfg r s).1.timer_on = false)) ∧
    ((done_charging cfg r s).1.pwm_count = s.pwm_count ∧
      (done_charging cfg r s).1.timer_on = false ∧
      ((done_charging cfg r s).1.cur_state = s.cur_state ∨
        (done_charging cfg r s).1.cur_state = STATES.DONE_CHG ∨
        (done_charging cfg r s).1.cur_state = STATES.INIT_CHG)) ∧
    ((init_charger cfg r s).pwm_count = 0 ∧
      (init_charger cfg r s).cur_state = STATES.INTEGRATE) := by
  obtain ⟨i1, i2, -⟩ := integrate_frame_scheduler cfg r s
  refine ⟨pwm_handler_eq s, ⟨i1, i2⟩, check_battery_state cfg r s, mppt_state cfg r s,
    done_charging_state cfg r s, ?_⟩
  unfold init_charger check_battery check_solar
  dsimp only
  split <;> exact ⟨rfl, rfl⟩

/-- C20: `integrate()` leaves `cur_state` unchanged; `mppt()` leaves it
unchanged or sets it to `DONE_CHG`; hence a step of
`charger_state_machine()` taken in `INTEGRATE` ends in `INTEGRATE`, and one
taken in `MPPT` ends in `MPPT` or `DONE_CHG`: the foreground makes no
transition between `INTEGRATE` and `MPPT`, while `pwm_handler()` makes both. -/
theorem phase_transitions_by_scheduler (cfg : Config) (r : Readings) (s : Charger) :
    (integrate cfg r s).1.cur_state = s.cur_state ∧
    ((mppt cfg r s).1.cur_state = s.cur_state ∨
      (mppt cfg r s).1.cur_state = STATES.DONE_CHG) ∧
    (s.cur_state = STATES.INTEGRATE →
      (charger_state_machine cfg r s).1.cur_state = STATES.INTEGRATE) ∧
    (s.cur_state = STATES.MPPT →
      (charger_state_machine cfg r s).1.cur_state = STATES.MPPT ∨
      (charger_state_machine cfg r s).1.cur_state = STATES.DONE_CHG) ∧
    (∃ t : Charger, t.cur_state = STATES.INTEGRATE ∧ (pwm_handler t).cur_state = STATES.MPPT) ∧
    (∃ t : Charger, t.cur_state = STATES.MPPT ∧ (pwm_handler t).cur_state = STATES.INTEGRATE) := by
  have hm : (mppt cfg r s).1.cur_state = s.cur_state ∨
      (mppt cfg r s).1.cur_state = STATES.DONE_CHG := by
    rcases (mppt_state cfg r s).2 with h | h
    · exact Or.inl h.1
    · exact Or.inr h.1
  refine ⟨rfl, hm, ?_, ?_, ⟨sLastCharge, by decide, by decide⟩,
    ⟨{ sA with pwm_count := 0 }, by decide, by decide⟩⟩
  · intro h
    unfold charger_state_machine
    rw [h]
    exact h
  · intro h
    unfold charger_state_machine
    rw [h]
    show (mppt cfg r s).1.cur_state = STATES.MPPT ∨ (mppt cfg r s).1.cur_state = STATES.DONE_CHG
    rw [← h]
    exact hm

/-- Witness of C20: a foreground step in `INTEGRATE` stays there, and a step
in `MPPT` with a full battery ends in `DONE_CHG`. -/
theorem phase_transitions_by_scheduler_witness :
    sGap.cur_state = STATES.INTEGRATE ∧
    (charger_state_machine cfg2 rW1 sGap).1.cur_state = STATES.INTEGRATE ∧
    sA.cur_state = STATES.MPPT ∧
    ((charger_state_machine cfgA rFull sA).1.cur_state = STATES.MPPT ∨
      (charger_state_machine cfgA rFull sA).1.cur_state = STATES.DONE_CHG) :=
  ⟨by with_unfolding_all decide,
    (phase_transitions_by_scheduler cfg2 rW1 sGap).2.2.1 (by with_unfolding_all decide),
    by decide,
    (phase_transitions_by_scheduler cfgA rFull sA).2.2.2.1 (by decide)⟩

/-! ## Where the window counter advances -/

/-- C21 (counterexample): with `NUM_INT = 2`, a step of
`charger_state_machine()` in state `MPPT` on a record with an open window
raises `num_integrals` from 0 to 1: the operation run is `mppt()`. -/
theorem num_integrals_raised_by_mppt :
    sA.cur_state = STATES.MPPT ∧ sA.num_integrals = 0 ∧
    (charger_state_machine cfg2 rA sA).1.num_integrals = 1 ∧
    (mppt cfg2 rA sA).1.num_integrals = 1 ∧
    sA.num_integrals < (charger_state_machine cfg2 rA sA).1.num_integrals := by
  with_unfolding_all decide

/-- C21 (amended): in every step of `charger_state_machine()` that increases
`num_integrals`, the state being dispatched is `MPPT` (the operation run is
`mppt()`) and the call is entered with `new_integral` set, so that it folds a
window; `integrate()`, dispatched in state `INTEGRATE`, never changes
`num_integrals`. -/
theorem num_integrals_advances_in_mppt (cfg : Config) (r : Readings) (s : Charger) :
    (s.num_integrals < (charger_state_machine cfg r s).1.num_integrals →
      s.cur_state = STATES.MPPT ∧ s.new_integral = true) ∧
    (integrate cfg r s).1.num_integrals = s.num_integrals ∧
    (s.cur_state = STATES.INTEGRATE →
      (charger_state_machine cfg r s).1.num_integrals = s.num_integrals) := by
  refine ⟨?_, rfl, ?_⟩
  · intro hlt
    cases hs : s.cur_state
    · exfalso
      have h0 : (charger_state_machine cfg r s).1.num_integrals = 0 := by
        unfold charger_state_machine
        rw [hs]
        unfold init_charger check_battery check_solar
        dsimp only
        split <;> rfl
      omega
    · exfalso
      have h0 : (charger_state_machine cfg r s).1.num_integrals = s.num_integrals := by
        unfold charger_state_machine
        rw [hs]
        rfl
      omega
    · refine ⟨rfl, ?_⟩
      have h0 : (charger_state_machine cfg r s).1 = (mppt cfg r s).1 := by
        unfold charger_state_machine
        rw [hs]
      rw [h0, (mppt_counter cfg r s).2.1] at hlt
      cases hn : s.new_integral
      · exfalso
        rw [hn] at hlt
        simp only [Bool.false_eq_true, if_false] at hlt
        split_ifs at hlt <;> omega
      · rfl
    · exfalso
      have h0 : (charger_state_machine cfg r s).1.num_integrals = s.num_integrals := by
        unfold charger_state_machine
        rw [hs]
        unfold done_charging check_battery check_solar
        dsimp only
        split_ifs <;> rfl
      omega
  · intro hs
    unfold charger_state_machine
    rw [hs]
    rfl

/-- Witness of C21 (amended): the step that raises `num_integrals` from 0 to 1
is dispatched in `MPPT` with `new_integral` set; a step in `INTEGRATE` leaves
the counter alone. -/
theorem num_integrals_advances_in_mppt_witness :
    (sA.cur_state = STATES.MPPT ∧ sA.new_integral = true) ∧
    sGap.cur_state = STATES.INTEGRATE ∧
    (charger_state_machine cfg2 rW1 sGap).1.num_integrals = sGap.num_integrals :=
  ⟨(num_integrals_advances_in_mppt cfg2 rA sA).1 (by with_unfolding_all decide),
    by with_unfolding_all decide,
    (num_integrals_advances_in_mppt cfg2 rW1 sGap).2.2 (by with_unfolding_all decide)⟩

/-! ## Stopping and restarting -/

/-- The record `done_charging()` returns, by the outcome of its two tests. -/
theorem done_charging_cur_state (cfg : Config) (r : Readings) (s : Charger) :
    (done_charging cfg r s).1.cur_state =
      (if r.VBAT_MEAS < cfg.VCHARGE ∧
          cfg.arith.div (cfg.arith.mul r.VSOL_MEAS (cfg.D_MAX : Rat)) 100 ≥ r.VBAT_MEAS then
        STATES.INIT_CHG
      else if r.VBAT_MEAS ≥ cfg.VCHARGE then STATES.DONE_CHG
      else s.cur_state) := by
  unfold done_charging check_battery check_solar
  dsimp only
  by_cases h1 : r.VBAT_MEAS ≥ cfg.VCHARGE
  · have h2 : ¬ r.VBAT_MEAS < cfg.VCHARGE := not_lt.mpr h1
    simp [h1, h2]
  · have h2 : r.VBAT_MEAS < cfg.VCHARGE := not_le.mp h1
    by_cases h3 : cfg.arith.div (cfg.arith.mul r.VSOL_MEAS (cfg.D_MAX : Rat)) 100 ≥ r.VBAT_MEAS
    · simp [h1, h2, h3]
    · simp [h1, h2, h3]

/-- The timer flag `mppt()` returns, by the outcome of its two cutoff tests. -/
theorem mppt_timer_on (cfg : Config) (r : Readings) (s : Charger) :
    (mppt cfg r s).1.timer_on =
      (if r.VBAT_MEAS ≥ cfg.VCHARGE ∨
          cfg.arith.div (cfg.arith.mul r.VSOL_MEAS (cfg.D_MAX : Rat)) 100 < r.VBAT_MEAS then
        false
      else s.timer_on) := by
  rw [(mppt_state_of_checks cfg r s).2]
  unfold mppt_checks check_battery check_solar
  dsimp only
  by_cases h1 : r.VBAT_MEAS ≥ cfg.VCHARGE
  · by_cases h3 : cfg.arith.div (cfg.arith.mul r.VSOL_MEAS (cfg.D_MAX : Rat)) 100 < r.VBAT_MEAS
    · simp [h1, h3]
    · simp [h1, h3]
  · by_cases h3 : cfg.arith.div (cfg.arith.mul r.VSOL_MEAS (cfg.D_MAX : Rat)) 100 < r.VBAT_MEAS
    · simp [h1, h3]
    · simp [h1, h3]

/-- C23: for every pair of samples and every arithmetic of the target,
`done_charging()` (entered in `DONE_CHG`) sets `cur_state = INIT_CHG` exactly
when neither `v_battery >= VCHARGE` nor `v_solar * D_MAX / 100 < v_battery`
holds, and `mppt()` (entered with the timer on) cuts off exactly when one of
the two holds, the product and the quotient being those both functions
compute; so `done_charging()` restarts exactly on the samples on which
`mppt()` does not cut off. -/
theorem restart_iff_no_cutoff (cfg : Config) (r : Readings) (s t : Charger)
    (hs : s.cur_state = STATES.DONE_CHG) (ht : t.timer_on = true) :
    ((done_charging cfg r s).1.cur_state = STATES.INIT_CHG ↔
      ¬ r.VBAT_MEAS ≥ cfg.VCHARGE ∧
      ¬ cfg.arith.div (cfg.arith.mul r.VSOL_MEAS (cfg.D_MAX : Rat)) 100 < r.VBAT_MEAS) ∧
    ((mppt cfg r t).1.timer_on = false ∧ (mppt cfg r t).1.cur_state = STATES.DONE_CHG ↔
      r.VBAT_MEAS ≥ cfg.VCHARGE ∨
          cfg.arith.div (cfg.arith.mul r.VSOL_MEAS (cfg.D_MAX : Rat)) 100 < r.VBAT_MEAS) ∧
    ((done_charging cfg r s).1.cur_state = STATES.INIT_CHG ↔
      (mppt cfg r t).1.timer_on = true) := by
  have hd := done_charging_cur_state cfg r s
  have hm := mppt_timer_on cfg r t
  have hst := (mppt_state cfg r t).2
  rw [hs] at hd
  rw [ht] at hm
  have e1 : (done_charging cfg r s).1.cur_state = STATES.INIT_CHG ↔
      ¬ r.VBAT_MEAS ≥ cfg.VCHARGE ∧
      ¬ cfg.arith.div (cfg.arith.mul r.VSOL_MEAS (cfg.D_MAX : Rat)) 100 < r.VBAT_MEAS := by
    rw [hd]
    by_cases h1 : r.VBAT_MEAS ≥ cfg.VCHARGE
    · have h2 : ¬ r.VBAT_MEAS < cfg.VCHARGE := not_lt.mpr h1
      simp [h1, h2]
    · have h2 : r.VBAT_MEAS < cfg.VCHARGE := not_le.mp h1
      by_cases h3 : cfg.arith.div (cfg.arith.mul r.VSOL_MEAS (cfg.D_MAX : Rat)) 100 < r.VBAT_MEAS
      · have h4 : ¬
          cfg.arith.div (cfg.arith.mul r.VSOL_MEAS (cfg.D_MAX : Rat)) 100 ≥ r.VBAT_MEAS := not_le.mpr h3
        simp [h1, h2, h3, h4]
      · have h4 :
          cfg.arith.div (cfg.arith.mul r.VSOL_MEAS (cfg.D_MAX : Rat)) 100 ≥ r.VBAT_MEAS := not_lt.mp h3
        simp [h1, h2, h3, h4]
  have e2 : (mppt cfg r t).1.timer_on = false ↔
      r.VBAT_MEAS ≥ cfg.VCHARGE ∨
          cfg.arith.div (cfg.arith.mul r.VSOL_MEAS (cfg.D_MAX : Rat)) 100 < r.VBAT_MEAS := by
    rw [hm]
    by_cases h : r.VBAT_MEAS ≥ cfg.VCHARGE ∨
        cfg.arith.div (cfg.arith.mul r.VSOL_MEAS (cfg.D_MAX : Rat)) 100 < r.VBAT_MEAS
    · simp [h]
    · simp [h]
  refine ⟨e1, ?_, ?_⟩
  · constructor
    · intro h
      exact e2.mp h.1
    · intro h
      have hf := e2.mpr h
      refine ⟨hf, ?_⟩
      rcases hst with h5 | h5
      · rw [h5.2, ht] at hf
        exact absurd hf (by decide)
      · exact h5.1
  · rw [e1, ← not_or, ← e2]
    cases (mppt cfg r t).1.timer_on <;> simp

/-- Witness of C23: the samples (10 V, 20 V) restart and do not cut off; the
samples (12 V, 10 V) cut off and do not restart (18 against 10 and 9 against
12, far from any rounding). -/
theorem restart_iff_no_cutoff_witness :
    (done_charging cfgA rA sDone).1.cur_state = STATES.INIT_CHG ∧
    (mppt cfgA rA sA).1.timer_on = true ∧
    (done_charging cfgA rDark sDone).1.cur_state ≠ STATES.INIT_CHG ∧
    (mppt cfgA rDark sA).1.timer_on = false :=
  ⟨(restart_iff_no_cutoff cfgA rA sDone sA (by decide) (by decide)).1.mpr
      ⟨by with_unfolding_all decide, by with_unfolding_all decide⟩,
    (restart_iff_no_cutoff cfgA rA sDone sA (by decide) (by decide)).2.2.mp
      ((restart_iff_no_cutoff cfgA rA sDone sA (by decide) (by decide)).1.mpr
        ⟨by with_unfolding_all decide, by with_unfolding_all decide⟩),
    by with_unfolding_all decide,
    ((restart_iff_no_cutoff cfgA rDark sDone sA (by decide) (by decide)).2.1.mpr
      (Or.inr (by with_unfolding_all decide))).1⟩

theorem pwm_handler_timer_off (s : Charger) (h : s.timer_on = false) : pwm_handler s = s := by
  unfold pwm_handler
  rw [h]
  rfl

/-- C24: from a record with `cur_state = DONE_CHG` and `timer_on = false`, as
a cutoff in `mppt()` leaves it, any number of `pwm_handler()` ticks return
the same record, so `cur_state` stays `DONE_CHG` and `pwm_count` is
unchanged.  The foreground step dispatched in that state is
`done_charging()`, which ends in `DONE_CHG` or `INIT_CHG` with the timer
off; `integrate()`, `mppt()` and `check_battery()` keep `DONE_CHG`. -/
theorem shut_down_stays_down (cfg : Config) (r : Readings) (s : Charger)
    (h1 : s.cur_state = STATES.DONE_CHG) (h2 : s.timer_on = false) :
    (∀ n : Nat, pwm_handler^[n] s = s) ∧
    (∀ n : Nat, (pwm_handler^[n] s).cur_state = STATES.DONE_CHG ∧
      (pwm_handler^[n] s).pwm_count = s.pwm_count) ∧
    charger_state_machine cfg r s = done_charging cfg r s ∧
    ((done_charging cfg r s).1.cur_state = STATES.DONE_CHG ∨
      (done_charging cfg r s).1.cur_state = STATES.INIT_CHG) ∧
    (done_charging cfg r s).1.timer_on = false ∧
    (integrate cfg r s).1.cur_state = STATES.DONE_CHG ∧
    (mppt cfg r s).1.cur_state = STATES.DONE_CHG ∧
    (check_battery cfg r s).cur_state = STATES.DONE_CHG := by
  have hit : ∀ n : Nat, pwm_handler^[n] s = s := by
    intro n
    induction n with
    | zero => rfl
    | succ n ih => rw [Function.iterate_succ_apply, pwm_handler_timer_off s h2, ih]
  obtain ⟨-, d2, d3⟩ := done_charging_state cfg r s
  refine ⟨hit, ?_, ?_, ?_, d2, h1, ?_, ?_⟩
  · intro n
    rw [hit n]
    exact ⟨h1, rfl⟩
  · unfold charger_state_machine
    rw [h1]
  · rcases d3 with h | h | h
    · left; rw [h, h1]
    · left; exact h
    · right; exact h
  · rcases (mppt_state cfg r s).2 with h | h
    · rw [h.1, h1]
    · exact h.1
  · rcases (check_battery_state cfg r s).2 with h | h
    · rw [h.1, h1]
    · exact h.1

/-- Witness of C24: the record left by the cutoff of `mppt()` on a full
battery is unchanged by 1000 ticks. -/
theorem shut_down_stays_down_witness :
    sCut.cur_state = STATES.DONE_CHG ∧ sCut.timer_on = false ∧
    pwm_handler^[1000] sCut = sCut ∧
    (pwm_handler^[1000] sCut).cur_state = STATES.DONE_CHG :=
  ⟨by with_unfolding_all decide, by with_unfolding_all decide,
    (shut_down_stays_down cfgA rA sCut (by with_unfolding_all decide)
      (by with_unfolding_all decide)).1 1000,
    ((shut_down_stays_down cfgA rA sCut (by with_unfolding_all decide)
      (by with_unfolding_all decide)).2.1 1000).1⟩

/-! ## One switching period of the scheduler -/

/-- The selection `pwm_select` is the assignment to `cur_state` made by
`pwm_handler()`, and it does not depend on the value `cur_state` had. -/
theorem pwm_select_spec (s : Charger) (c : STATES) :
    (pwm_handler s).cur_state = (pwm_select s).getD s.cur_state ∧
    pwm_select { s with cur_state := c } = pwm_select s := by
  unfold pwm_handler pwm_select
  dsimp only
  split_ifs <;> exact ⟨rfl, rfl⟩

/-- One tick with the timer on, the counter below 100 and a duty cycle of at
most 99: the three arms of `pwm_handler()`. -/
theorem pwm_tick_cases (s : Charger)
    (ht : s.timer_on = true) (hp : s.pwm_count < 100) (hd : s.duty_cycle ≤ 99) :
    (pwm_handler s).timer_on = true ∧
    (pwm_handler s).duty_cycle = s.duty_cycle ∧
    (s.pwm_count + 1 ≤ s.duty_cycle →
      pwm_select s = some STATES.INTEGRATE ∧ (pwm_handler s).pwm_count = s.pwm_count + 1) ∧
    (s.duty_cycle < s.pwm_count + 1 → s.pwm_count + 1 < 100 →
      pwm_select s = some STATES.MPPT ∧ (pwm_handler s).pwm_count = s.pwm_count + 1) ∧
    (s.pwm_count = 99 →
      pwm_select s = none ∧ pwm_handler s = { s with pwm_count := 0 }) := by
  have hu : u8 (s.pwm_count + 1) = s.pwm_count + 1 := by unfold u8; omega
  unfold pwm_handler pwm_select
  rw [if_pos ht, if_pos ht]
  dsimp only
  rw [hu]
  refine ⟨?_, ?_, ?_, ?_, ?_⟩
  · split_ifs <;> exact ht
  · split_ifs <;> rfl
  · intro h
    rw [if_pos h, if_pos h]
    exact ⟨rfl, rfl⟩
  · intro h1 h2
    have h3 : ¬ s.pwm_count + 1 ≤ s.duty_cycle := by omega
    have h4 : s.pwm_count + 1 > s.duty_cycle ∧ s.pwm_count + 1 < 100 := ⟨h1, h2⟩
    rw [if_neg h3, if_neg h3, if_pos h4, if_pos h4]
    exact ⟨rfl, rfl⟩
  · intro h
    have h3 : ¬ s.pwm_count + 1 ≤ s.duty_cycle := by omega
    have h4 : ¬ (s.pwm_count + 1 > s.duty_cycle ∧ s.pwm_count + 1 < 100) := by omega
    have h5 : s.pwm_count + 1 ≥ 100 := by omega
    rw [if_neg h3, if_neg h3, if_neg h4, if_neg h4, if_pos h5]
    exact ⟨rfl, rfl⟩

theorem pwm_ticks_add (m n : Nat) (s : Charger) :
    pwm_ticks (m + n) s = pwm_ticks m s ++ pwm_ticks n (pwm_handler^[m] s) := by
  induction m generalizing s with
  | zero => simp [pwm_ticks]
  | succ m ih =>
    rw [Nat.succ_add, pwm_ticks, pwm_ticks, ih, Function.iterate_succ_apply]
    rfl

/-- Ticks of the charge phase: while the incremented counter stays at or
below the duty cycle every tick selects `INTEGRATE`. -/
theorem pwm_ticks_charge (n : Nat) (s : Charger)
    (ht : s.timer_on = true) (hn : s.pwm_count + n ≤ s.duty_cycle) (hd : s.duty_cycle ≤ 99) :
    pwm_ticks n s = List.replicate n (some STATES.INTEGRATE) ∧
    (pwm_handler^[n] s).pwm_count = s.pwm_count + n ∧
    (pwm_handler^[n] s).timer_on = true ∧
    (pwm_handler^[n] s).duty_cycle = s.duty_cycle := by
  induction n generalizing s with
  | zero => exact ⟨rfl, rfl, ht, rfl⟩
  | succ n ih =>
    obtain ⟨t1, t2, t3, -, -⟩ := pwm_tick_cases s ht (by omega) hd
    obtain ⟨t4, t5⟩ := t3 (by omega)
    obtain ⟨i1, i2, i3, i4⟩ := ih (pwm_handler s) t1 (by rw [t5, t2]; omega) (by rw [t2]; exact hd)
    rw [pwm_ticks, Function.iterate_succ_apply, i1, i2, i3, i4, t4, t5, t2]
    exact ⟨rfl, by omega, rfl, rfl⟩

/-- Ticks of the sense phase: once the counter has reached the duty cycle,
every tick that keeps it below 100 selects `MPPT`. -/
theorem pwm_ticks_sense (n : Nat) (s : Charger)
    (ht : s.timer_on = true) (hlo : s.duty_cycle ≤ s.pwm_count) (hn : s.pwm_count + n ≤ 99)
    (hd : s.duty_cycle ≤ 99) :
    pwm_ticks n s = List.replicate n (some STATES.MPPT) ∧
    (pwm_handler^[n] s).pwm_count = s.pwm_count + n ∧
    (pwm_handler^[n] s).timer_on = true ∧
    (pwm_handler^[n] s).duty_cycle = s.duty_cycle := by
  induction n generalizing s with
  | zero => exact ⟨rfl, rfl, ht, rfl⟩
  | succ n ih =>
    obtain ⟨t1, t2, -, t3, -⟩ := pwm_tick_cases s ht (by omega) hd
    obtain ⟨t4, t5⟩ := t3 (by omega) (by omega)
    obtain ⟨i1, i2, i3, i4⟩ := ih (pwm_handler s) t1 (by rw [t5, t2]; omega)
      (by rw [t5]; omega) (by rw [t2]; exact hd)
    rw [pwm_ticks, Function.iterate_succ_apply, i1, i2, i3, i4, t4, t5, t2]
    exact ⟨rfl, by omega, rfl, rfl⟩

/-- One period split into its charge ticks, its sense ticks and the tick that
resets the counter. -/
theorem pwm_period_split (s : Charger) (N : Nat)
    (ht : s.timer_on = true) (hp : s.pwm_count = 0) (hd : s.duty_cycle ≤ 99)
    (hN : N = s.duty_cycle + ((99 - s.duty_cycle) + 1)) :
    pwm_ticks N s =
      List.replicate s.duty_cycle (some STATES.INTEGRATE) ++
        (List.replicate (99 - s.duty_cycle) (some STATES.MPPT) ++ [none]) ∧
    pwm_handler^[N] s = { (pwm_handler^[99] s) with pwm_count := 0 } ∧
    (pwm_handler^[99] s).pwm_count = 99 := by
  subst hN
  obtain ⟨c1, c2, c3, c4⟩ := pwm_ticks_charge s.duty_cycle s ht (by omega) hd
  obtain ⟨m1, m2, m3, m4⟩ := pwm_ticks_sense (99 - s.duty_cycle) (pwm_handler^[s.duty_cycle] s) c3
    (by rw [c2, c4]; omega) (by rw [c2]; omega) (by rw [c4]; exact hd)
  have hsplit : ∀ k : Nat, k = (99 - s.duty_cycle) + s.duty_cycle →
      pwm_handler^[k] s = pwm_handler^[99 - s.duty_cycle] (pwm_handler^[s.duty_cycle] s) := by
    intro k hk
    subst hk
    exact Function.iterate_add_apply _ _ _ _
  have h99 : pwm_handler^[99] s =
      pwm_handler^[99 - s.duty_cycle] (pwm_handler^[s.duty_cycle] s) :=
    hsplit 99 (by omega)
  have hc : (pwm_handler^[99] s).pwm_count = 99 := by
    rw [h99, m2, c2]; omega
  obtain ⟨-, -, -, -, t5⟩ := pwm_tick_cases (pwm_handler^[99] s)
    (by rw [h99]; exact m3) (by omega) (by rw [h99, m4, c4]; exact hd)
  obtain ⟨w1, w2⟩ := t5 hc
  refine ⟨?_, ?_, hc⟩
  · rw [pwm_ticks_add, pwm_ticks_add, c1, m1, ← h99]
    simp only [pwm_ticks, w1]
  · have hlast : ∀ k : Nat, k = 99 + 1 →
        pwm_handler^[k] s = pwm_handler (pwm_handler^[99] s) := by
      intro k hk
      subst hk
      exact Function.iterate_succ_apply' _ _ _
    rw [hlast _ (by omega)]
    exact w2

/-- C22: for every duty cycle `d` with `0 ≤ d ≤ 99`, starting from
`pwm_count = 0` with the timer on, the 100 ticks of one period assign
`cur_state = INTEGRATE` on the first `d` ticks, `cur_state = MPPT` on the
next `99 - d` ticks and nothing on the 100th tick, which only resets
`pwm_count` to 0; so `INTEGRATE` is selected on exactly `d` ticks, `MPPT` on
exactly `99 - d`, and for `d = 99` on none.  The entries of `pwm_ticks` are
the assignments `pwm_handler()` makes: each is the new `cur_state` whatever
the old one was, and an empty entry leaves `cur_state` as it was. -/
theorem pwm_period (s : Charger)
    (ht : s.timer_on = true) (hp : s.pwm_count = 0) (hd : s.duty_cycle ≤ 99) :
    pwm_ticks 100 s =
      List.replicate s.duty_cycle (some STATES.INTEGRATE) ++
        (List.replicate (99 - s.duty_cycle) (some STATES.MPPT) ++ [none]) ∧
    (pwm_ticks 100 s).count (some STATES.INTEGRATE) = s.duty_cycle ∧
    (pwm_ticks 100 s).count (some STATES.MPPT) = 99 - s.duty_cycle ∧
    pwm_handler^[100] s = { (pwm_handler^[99] s) with pwm_count := 0 } ∧
    (pwm_handler^[100] s).pwm_count = 0 ∧
    (s.duty_cycle = 99 → (pwm_ticks 100 s).count (some STATES.MPPT) = 0) ∧
    (∀ (t : Charger) (c : STATES),
      (pwm_handler t).cur_state = (pwm_select t).getD t.cur_state ∧
      pwm_select { t with cur_state := c } = pwm_select t) := by
  obtain ⟨p1, p2, -⟩ := pwm_period_split s 100 ht hp hd (by omega)
  have hI : (pwm_ticks 100 s).count (some STATES.INTEGRATE) = s.duty_cycle := by
    rw [p1]
    simp [List.count_append, List.count_replicate]
  have hM : (pwm_ticks 100 s).count (some STATES.MPPT) = 99 - s.duty_cycle := by
    rw [p1]
    simp [List.count_append, List.count_replicate]
  refine ⟨p1, hI, hM, p2, ?_, ?_, pwm_select_spec⟩
  · rw [p2]
  · intro h
    rw [hM, h]

/-- Witness of C22: at 30 percent the period selects `INTEGRATE` 30 times and
`MPPT` 69 times; at 99 percent it never selects `MPPT`. -/
theorem pwm_period_witness :
    sPeriod.duty_cycle = 30 ∧
    (pwm_ticks 100 sPeriod).count (some STATES.INTEGRATE) = 30 ∧
    (pwm_ticks 100 sPeriod).count (some STATES.MPPT) = 69 ∧
    (pwm_handler^[100] sPeriod).pwm_count = 0 ∧
    (pwm_ticks 100 sPeriod99).count (some STATES.MPPT) = 0 :=
  ⟨by decide,
    (pwm_period sPeriod (by decide) (by decide) (by decide)).2.1,
    (pwm_period sPeriod (by decide) (by decide) (by decide)).2.2.1,
    (pwm_period sPeriod (by decide) (by decide) (by decide)).2.2.2.2.1,
    (pwm_period sPeriod99 (by decide) (by decide) (by decide)).2.2.2.2.2.1 (by decide)⟩

end SolarCharger
